import Mathlib

/-!
# Stage / Avon bridge (`avonstage.cc`)

A shallow embedding of the callback adapters, the registration walk and the
command-line handling of `avonstage.cc`, of the strip plot of `vis_strip.cc` and
of the fiducial callback of `wander_pioneer.cc`, with the properties proved
about them.

Conventions of the embedding.

* The floating-point scalars (`double`, `float`) of `avonstage.cc` are only ever
  copied or set to the literals `0` and `1.0`; no arithmetic is done on them.
  The embedding is therefore parametric in the scalar type `α`, which only has
  to provide `0` and `1`.  Where `vis_strip.cc` and `wander_pioneer.cc` compare
  such values, they are of type `CFloat`, which knows not-a-number.
* A C array `double p[6]` is a function `Fin 6 → α`; an assignment
  `p[i] = v` is `Function.update p i v`; `bzero` yields the all-zero packet.
* A function that writes through an output pointer takes the old contents of
  the pointee and returns the new contents next to the `int` result.
* The `assert(mod)` / `assert(pva)` checks on pointer arguments hold by typing:
  a handle of the embedding is never null.
-/

namespace AvonStage

/-! ## Data model -/

/-- The simulator's pose `Stg::Pose(x, y, z, a)`. -/
structure Pose (α : Type) where
  x : α
  y : α
  z : α
  a : α
  deriving DecidableEq, Repr

/-- The simulator's velocity `Stg::Velocity(x, y, z, a)`. -/
structure Velocity (α : Type) where
  x : α
  y : α
  z : α
  a : α
  deriving DecidableEq, Repr

/-- The simulator's size `Stg::Size(x, y, z)`. -/
structure Size (α : Type) where
  x : α
  y : α
  z : α
  deriving DecidableEq, Repr

/-- The simulator's geometry `Stg::Geom(pose, size)`. -/
structure Geom (α : Type) where
  pose : Pose α
  size : Size α
  deriving DecidableEq, Repr

/-- The protocol packet `av_pva_t`: the fields `avonstage.cc` touches. -/
structure av_pva_t (α : Type) where
  time : Nat
  p : Fin 6 → α
  v : Fin 6 → α

/-- The protocol packet `av_geom_t`: the fields `avonstage.cc` touches. -/
structure av_geom_t (α : Type) where
  time : Nat
  pose : Fin 6 → α
  extent : Fin 3 → α

/-- The result of `bzero(pva, sizeof(av_pva_t))`. -/
def av_pva_t.zero (α : Type) [Zero α] : av_pva_t α :=
  { time := 0, p := fun _ => 0, v := fun _ => 0 }

/-- The result of `bzero(g, sizeof(av_geom_t))`. -/
def av_geom_t.zero (α : Type) [Zero α] : av_geom_t α :=
  { time := 0, pose := fun _ => 0, extent := fun _ => 0 }

/-- One transducer of a ranger, `Stg::ModelRanger::Sensor`: its pose and its
latest range and intensity readings. -/
structure Sensor (α : Type) where
  pose : Pose α
  ranges : List α
  intensities : List α
  deriving DecidableEq, Repr

/-- The part of the `Stg::Model` interface the generic callbacks call.  The
class itself is not part of the sources at hand, so it is a parameter: `M` is
the state of a model (together with whatever of its world it depends on), a
setter returns the new state. -/
structure ModelOps (M : Type) (α : Type) where
  /-- `mod->GetWorld()->SimTimeNow()`, in microseconds. -/
  SimTimeNow : M → Nat
  GetPose : M → Pose α
  SetPose : M → Pose α → M
  GetVelocity : M → Velocity α
  SetVelocity : M → Velocity α → M
  GetGeom : M → Geom α
  SetGeom : M → Geom α → M
  Redraw : M → M
  /-- `dynamic_cast<Stg::ModelRanger*>(mod)` followed by `GetSensors()`: the
  sensors of a ranger, `none` when the cast yields `NULL`. -/
  GetSensors : M → Option (List (Sensor α))

/-- `GetPose` and `GetVelocity` return what `SetPose` and `SetVelocity` last
stored: a later `SetVelocity` does not disturb the stored pose. -/
def ModelOps.StoresPV {M α : Type} (ops : ModelOps M α) : Prop :=
  (∀ m p, ops.GetPose (ops.SetPose m p) = p) ∧
  (∀ m v, ops.GetVelocity (ops.SetVelocity m v) = v) ∧
  (∀ m v, ops.GetPose (ops.SetVelocity m v) = ops.GetPose m)

/-- `GetGeom` returns the geometry last stored by `SetGeom`: a `Redraw` does not
disturb it. -/
def ModelOps.StoresGeom {M α : Type} (ops : ModelOps M α) : Prop :=
  (∀ m g, ops.GetGeom (ops.SetGeom m g) = g) ∧
  (∀ m, ops.GetGeom (ops.Redraw m) = ops.GetGeom m)

/-- A plain record of the attributes of a model, with the number of `Redraw`
calls it has received. -/
structure StoredModel (α : Type) where
  simtime : Nat
  pose : Pose α
  velocity : Velocity α
  geom : Geom α
  redraws : Nat
  sensors : Option (List (Sensor α))
  deriving DecidableEq, Repr

/-- Modelled from the spec: the `Stg::Model` accessors (`GetPose`, `SetPose`,
`GetVelocity`, `SetVelocity`, `GetGeom`, `SetGeom`, `Redraw`), whose bodies are
not among the sources.  Per the spec's "get/set pose, get/set velocity, get/set
geometry, a display-refresh trigger", each setter stores its argument, each
getter returns the stored value, and `Redraw` is counted. -/
def storedOps (α : Type) : ModelOps (StoredModel α) α where
  SimTimeNow := fun m => m.simtime
  GetPose := fun m => m.pose
  SetPose := fun m p => { m with pose := p }
  GetVelocity := fun m => m.velocity
  SetVelocity := fun m v => { m with velocity := v }
  GetGeom := fun m => m.geom
  SetGeom := fun m g => { m with geom := g }
  Redraw := fun m => { m with redraws := m.redraws + 1 }
  GetSensors := fun m => m.sensors

/-! ## Clock bridge -/

/-- `GetTimeWorld`: the world's `usec_t` time cast to `uint64_t`. -/
def GetTimeWorld (simTimeNow : Nat) : Nat :=
  simTimeNow % 2 ^ 64

/-- `GetTime(mod)`: the time of the model's world. -/
def GetTime {M α : Type} (ops : ModelOps M α) (mod : M) : Nat :=
  GetTimeWorld (ops.SimTimeNow mod)

/-! ## Generic attribute bridge -/

/-- `GetModelPVA(mod, pva)`: returns the filled packet and the `int` result.
The previous contents `pva` of the output packet are cleared first. -/
def GetModelPVA {M α : Type} [Zero α] (ops : ModelOps M α) (mod : M)
    (_pva : av_pva_t α) : av_pva_t α × Int :=
  let pva := av_pva_t.zero α
  let pva := { pva with time := GetTime ops mod }
  let sp := ops.GetPose mod
  let pva := { pva with p := Function.update pva.p 0 sp.x }
  let pva := { pva with p := Function.update pva.p 1 sp.y }
  let pva := { pva with p := Function.update pva.p 2 sp.z }
  let pva := { pva with p := Function.update pva.p 3 0 }
  let pva := { pva with p := Function.update pva.p 4 0 }
  let pva := { pva with p := Function.update pva.p 5 sp.a }
  let sv := ops.GetVelocity mod
  let pva := { pva with v := Function.update pva.v 0 sv.x }
  let pva := { pva with v := Function.update pva.v 1 sv.y }
  let pva := { pva with v := Function.update pva.v 2 sv.z }
  let pva := { pva with v := Function.update pva.v 3 0 }
  let pva := { pva with v := Function.update pva.v 4 0 }
  let pva := { pva with v := Function.update pva.v 5 sv.a }
  (pva, 0)

/-- `SetModelPVA(mod, p)`: returns the new model state and the `int` result. -/
def SetModelPVA {M α : Type} (ops : ModelOps M α) (mod : M) (p : av_pva_t α) : M × Int :=
  let mod := ops.SetPose mod (Pose.mk (p.p 0) (p.p 1) (p.p 2) (p.p 5))
  let mod := ops.SetVelocity mod (Velocity.mk (p.v 0) (p.v 1) (p.v 2) (p.v 5))
  (mod, 0)

/-- `SetModelGeom(mod, g)`: returns the new model state and the `int` result. -/
def SetModelGeom {M α : Type} (ops : ModelOps M α) (mod : M) (g : av_geom_t α) : M × Int :=
  let mod := ops.SetGeom mod
    (Geom.mk (Pose.mk (g.pose 0) (g.pose 1) (g.pose 2) (g.pose 5))
      (Size.mk (g.extent 0) (g.extent 1) (g.extent 2)))
  let mod := ops.Redraw mod
  (mod, 0)

/-- `GetModelGeom(mod, g)`: returns the filled packet and the `int` result.
The previous contents `g` of the output packet are cleared first. -/
def GetModelGeom {M α : Type} [Zero α] (ops : ModelOps M α) (mod : M)
    (_g : av_geom_t α) : av_geom_t α × Int :=
  let g := av_geom_t.zero α
  let g := { g with time := GetTime ops mod }
  let ext := ops.GetGeom mod
  let g := { g with pose := Function.update g.pose 0 ext.pose.x }
  let g := { g with pose := Function.update g.pose 1 ext.pose.y }
  let g := { g with pose := Function.update g.pose 2 ext.pose.a }
  let g := { g with extent := Function.update g.extent 0 ext.size.x }
  let g := { g with extent := Function.update g.extent 1 ext.size.y }
  let g := { g with extent := Function.update g.extent 2 ext.size.z }
  (g, 0)

/-- The packet read by `GetModelPVA(m, P0)` after `SetModelPVA(m, P)`. -/
def pvaRoundTrip {M α : Type} [Zero α] (ops : ModelOps M α) (m : M)
    (P P0 : av_pva_t α) : av_pva_t α :=
  (GetModelPVA ops (SetModelPVA ops m P).1 P0).1

/-- The packet read by `GetModelGeom(m, G0)` after `SetModelGeom(m, G)`. -/
def geomRoundTrip {M α : Type} [Zero α] (ops : ModelOps M α) (m : M)
    (G G0 : av_geom_t α) : av_geom_t α :=
  (GetModelGeom ops (SetModelGeom ops m G).1 G0).1

/-! ## Device registry and registration walk -/

/-- The device type tags of the protocol that `avonstage.cc` names. -/
inductive av_type_t where
  | AV_MODEL_GENERIC
  | AV_MODEL_POSITION2D
  | AV_MODEL_RANGER
  deriving DecidableEq, Repr

/-- A `Stg::Model*` as `RegisterModel` sees it: its token, its declared type
string and its chain of parents, nearest first (token and type string of
each); the chain is empty for a top-level model, whose `Parent()` is `NULL`. -/
structure Model where
  token : String
  type : String
  ancestors : List (String × String)
  deriving DecidableEq, Repr

/-- `mod->Token()`. -/
def Model.Token (mod : Model) : String := mod.token

/-- `mod->GetModelType()`. -/
def Model.GetModelType (mod : Model) : String := mod.type

/-- `mod->Parent()`: the first model of the chain of parents, `none` for
`NULL`. -/
def Model.Parent (mod : Model) : Option Model :=
  match mod.ancestors with
  | [] => none
  | (tok, ty) :: rest => some { token := tok, type := ty, ancestors := rest }

/-- One call of `av_register_model(name, type, parent_name, handle)`: the
registered device. -/
structure Device where
  name : String
  type : av_type_t
  parent_name : Option String
  handle : Model
  deriving DecidableEq, Repr

/-- The protocol server's registry, as the sequence of `av_register_model`
calls received so far.  The server is an external library. -/
abbrev Registry := List Device

/-- `av_register_model`: records the device. -/
def av_register_model (name : String) (type : av_type_t) (parent_name : Option String)
    (handle : Model) (reg : Registry) : Registry :=
  reg ++ [{ name := name, type := type, parent_name := parent_name, handle := handle }]

/-- `RegisterModel(mod, dummy)`: returns the registry after the call and the
`int` result. -/
def RegisterModel (mod : Model) (reg : Registry) : Registry × Int :=
  let type := av_type_t.AV_MODEL_GENERIC
  let str := mod.GetModelType
  let type :=
    if str = "position" then av_type_t.AV_MODEL_POSITION2D
    else if str = "ranger" then av_type_t.AV_MODEL_RANGER
    else type
  let parent := mod.Parent
  let parent_name : Option String :=
    match parent with
    | some p => some p.Token
    | none => none
  (av_register_model mod.Token type parent_name mod reg, 0)

/-- The ordered child list of an ancestor (the world or a model) of the
simulation tree: empty, or a first child (token, type string, its own child
list) followed by the remaining children. -/
inductive ModelList where
  | nil : ModelList
  | node (token : String) (type : String) (children : ModelList) (siblings : ModelList) :
      ModelList
  deriving DecidableEq, Repr

/-- Modelled from the spec: `Ancestor::ForEachDescendant(func, arg)`, whose body
is not among the sources.  Per the spec it is "a whole-tree visitor (for each
descendant, invoke callback)" doing a "pre-order traversal of the simulation's
model tree": each child is passed to `func`, then its own descendants are
visited, then the next child.  `anc` is the chain of parents of the children of
this list, so that a visited model's `Parent()` is the model whose child list
it is in. -/
def ForEachDescendant {S : Type} (func : Model → S → S × Int) :
    List (String × String) → ModelList → S → S
  | _, ModelList.nil, s => s
  | anc, ModelList.node tok ty kids sibs, s =>
    let mod : Model := { token := tok, type := ty, ancestors := anc }
    let s := (func mod s).1
    let s := ForEachDescendant func ((tok, ty) :: anc) kids s
    ForEachDescendant func anc sibs s

/-- The registration walk of `main`: `world->ForEachDescendant(RegisterModel,
NULL)` on an empty registry. -/
def registerWorld (world : ModelList) : Registry :=
  ForEachDescendant RegisterModel [] world []

/-- The relation "the simulation tree below this child list has a model with
token `tok` whose parent has token `par`" (`par = none`: the model has no
parent model).  `owner` is the token of the model owning the child list, `none`
for the world. -/
inductive Occurs : Option String → ModelList → String → Option String → Prop where
  | here (owner : Option String) (tok ty : String) (kids sibs : ModelList) :
      Occurs owner (ModelList.node tok ty kids sibs) tok owner
  | inChild (owner : Option String) (tok ty : String) (kids sibs : ModelList)
      (t : String) (p : Option String) :
      Occurs (some tok) kids t p → Occurs owner (ModelList.node tok ty kids sibs) t p
  | inSibling (owner : Option String) (tok ty : String) (kids sibs : ModelList)
      (t : String) (p : Option String) :
      Occurs owner sibs t p → Occurs owner (ModelList.node tok ty kids sibs) t p

/-! ## Typed capability bridge: the ranger -/

/-- The ways a call can stop without returning: a failed `assert` (with the
text of the asserted condition), a call through a null pointer, and an array
access outside the array.  The last two are undefined behaviour in the source;
the embedding stops there. -/
inductive Fault where
  | assertion (cond : String)
  | nullPointer
  | outOfBounds
  deriving DecidableEq, Repr

deriving instance DecidableEq for Except

/-- The two array bounds of the ranger data packet.  The protocol header that
declares them is not among the sources, so they are parameters:
`AV_RANGER_TRANSDUCERS_MAX` is the length of `transducers[]` (the bound the
source asserts), `AV_RANGER_SAMPLES_MAX` stands for the declared length of the
`samples[]` array of one transducer record. -/
structure AvLimits where
  AV_RANGER_TRANSDUCERS_MAX : Nat
  AV_RANGER_SAMPLES_MAX : Nat
  deriving DecidableEq, Repr

/-- One sample `samples[r]`, by the names of its four fields
(`AV_SAMPLE_BEARING`, `AV_SAMPLE_AZIMUTH`, `AV_SAMPLE_RANGE`,
`AV_SAMPLE_INTENSITY`). -/
structure av_sample_t (α : Type) where
  bearing : α
  azimuth : α
  range : α
  intensity : α
  deriving DecidableEq, Repr

/-- One transducer record `rd.transducers[s]`; `samples` is a fixed-length
array. -/
structure av_ranger_transducer_data_t (α : Type) where
  pose : Fin 6 → α
  samples : List (av_sample_t α)
  sample_count : Nat

/-- The static buffer `rd` of `RangerData`; `transducers` is a fixed-length
array.  The two count fields are taken wide enough to hold the size of a
vector, so the assignments `transducer_count = sensors.size()` and
`sample_count = ranges.size()` lose nothing. -/
structure av_ranger_data_t (α : Type) where
  transducer_count : Nat
  transducers : List (av_ranger_transducer_data_t α)

/-- What the `data` pointer of an `av_data_t` points to. -/
inductive DataPtr where
  | null
  | rd
  deriving DecidableEq, Repr

/-- The packet header `av_data_t`. -/
structure av_data_t where
  time : Nat
  type : av_type_t
  data : DataPtr
  deriving DecidableEq, Repr

/-- An all-zero sample. -/
def av_sample_t.zero (α : Type) [Zero α] : av_sample_t α :=
  { bearing := 0, azimuth := 0, range := 0, intensity := 0 }

/-- An all-zero transducer record. -/
def av_ranger_transducer_data_t.zero (α : Type) [Zero α] (lim : AvLimits) :
    av_ranger_transducer_data_t α :=
  { pose := fun _ => 0
    samples := List.replicate lim.AV_RANGER_SAMPLES_MAX (av_sample_t.zero α)
    sample_count := 0 }

/-- The result of `bzero(&rd, sizeof(rd))`. -/
def av_ranger_data_t.zero (α : Type) [Zero α] (lim : AvLimits) : av_ranger_data_t α :=
  { transducer_count := 0
    transducers := List.replicate lim.AV_RANGER_TRANSDUCERS_MAX
      (av_ranger_transducer_data_t.zero α lim) }

/-- The assignment `tr.samples[r][field] = v`, as an update `f` of sample `r`;
`none` when `r` is outside the array. -/
def writeSample {α : Type} (tr : av_ranger_transducer_data_t α) (r : Nat)
    (f : av_sample_t α → av_sample_t α) : Option (av_ranger_transducer_data_t α) :=
  match tr.samples[r]? with
  | some smp => some { tr with samples := tr.samples.set r (f smp) }
  | none => none

/-- The body of the sample loop of `RangerData` at index `r`; `none` when an
access is outside its array. -/
def sampleBody {α : Type} [One α] (ranges intensities : List α) (r : Nat)
    (tr : av_ranger_transducer_data_t α) : Option (av_ranger_transducer_data_t α) := do
  let tr ← writeSample tr r (fun smp => { smp with bearing := 1 })
  let tr ← writeSample tr r (fun smp => { smp with azimuth := 1 })
  let range ← ranges[r]?
  let tr ← writeSample tr r (fun smp => { smp with range := range })
  let intensity ← intensities[r]?
  writeSample tr r (fun smp => { smp with intensity := intensity })

/-- The sample loop `for (r = ..; r < sample_count; r++)` of `RangerData`, with
`k = sample_count - r` iterations to go.  Returns the transducer record as it is
when the loop stops, and the fault if it stopped on one. -/
def sampleLoop {α : Type} [One α] (ranges intensities : List α) :
    Nat → Nat → av_ranger_transducer_data_t α →
      av_ranger_transducer_data_t α × Option Fault
  | 0, _, tr => (tr, none)
  | k + 1, r, tr =>
    match sampleBody ranges intensities r tr with
    | some tr => sampleLoop ranges intensities k (r + 1) tr
    | none => (tr, some Fault.outOfBounds)

/-- The six assignments to `rd.transducers[s].pose[..]`. -/
def writePose {α : Type} [Zero α] (sp : Pose α) (tr : av_ranger_transducer_data_t α) :
    av_ranger_transducer_data_t α :=
  let tr := { tr with pose := Function.update tr.pose 0 sp.x }
  let tr := { tr with pose := Function.update tr.pose 1 sp.y }
  let tr := { tr with pose := Function.update tr.pose 2 sp.z }
  let tr := { tr with pose := Function.update tr.pose 3 0 }
  let tr := { tr with pose := Function.update tr.pose 4 0 }
  let tr := { tr with pose := Function.update tr.pose 5 sp.a }
  tr

/-- The transducer loop `for (s = ..; s < rd.transducer_count; s++)` of
`RangerData`, with `k = transducer_count - s` iterations to go.  Returns the
buffer as it is when the loop stops, and the fault if it stopped on one. -/
def transducerLoop {α : Type} [Zero α] [One α] (sensors : List (Sensor α)) :
    Nat → Nat → av_ranger_data_t α → av_ranger_data_t α × Option Fault
  | 0, _, rd => (rd, none)
  | k + 1, s, rd =>
    match sensors[s]?, rd.transducers[s]? with
    | some sensor, some tr =>
      let tr := writePose sensor.pose tr
      if sensor.ranges.length = sensor.intensities.length then
        let tr := { tr with sample_count := sensor.ranges.length }
        let (tr, fault) := sampleLoop sensor.ranges sensor.intensities tr.sample_count 0 tr
        let rd := { rd with transducers := rd.transducers.set s tr }
        match fault with
        | none => transducerLoop sensors k (s + 1) rd
        | some f => (rd, some f)
      else
        ({ rd with transducers := rd.transducers.set s tr },
          some (Fault.assertion "ranges.size() == intensities.size()"))
    | _, _ => (rd, some Fault.outOfBounds)

/-- A run of `RangerData`: the static buffer `rd` and the header `*data` as they
are when the function stops, and either the returned `int` or the fault that
stopped it. -/
structure RangerRun (α : Type) where
  rd : av_ranger_data_t α
  data : av_data_t
  result : Except Fault Int

/-- `RangerData(mod, data)`.  The diagnostic `printf` of the sample count is not
part of the packet and is left out. -/
def RangerData {M α : Type} [Zero α] [One α] (lim : AvLimits) (ops : ModelOps M α)
    (mod : M) : RangerRun α :=
  let rd := av_ranger_data_t.zero α lim
  let data : av_data_t :=
    { time := GetTime ops mod, type := av_type_t.AV_MODEL_RANGER, data := DataPtr.rd }
  match ops.GetSensors mod with
  | none => { rd := rd, data := data, result := Except.error Fault.nullPointer }
  | some sensors =>
    let rd := { rd with transducer_count := sensors.length }
    if rd.transducer_count ≤ lim.AV_RANGER_TRANSDUCERS_MAX then
      match transducerLoop sensors rd.transducer_count 0 rd with
      | (rd, none) => { rd := rd, data := data, result := Except.ok 0 }
      | (rd, some f) => { rd := rd, data := data, result := Except.error f }
    else
      { rd := rd, data := data,
        result := Except.error
          (Fault.assertion "rd.transducer_count <= AV_RANGER_TRANSDUCERS_MAX") }

/-- The transducer record `tr` holds the data of sensor `sensor`: the pose is
`(x, y, z, 0, 0, a)`, the sample count is the number of ranges, and every sample
below the sample count has the sensor's range and intensity at that index and
bearing and azimuth `1`. -/
def HoldsSensor {α : Type} [Zero α] [One α] (sensor : Sensor α)
    (tr : av_ranger_transducer_data_t α) : Prop :=
  (tr.pose 0 = sensor.pose.x ∧ tr.pose 1 = sensor.pose.y ∧ tr.pose 2 = sensor.pose.z ∧
    tr.pose 3 = 0 ∧ tr.pose 4 = 0 ∧ tr.pose 5 = sensor.pose.a) ∧
  tr.sample_count = sensor.ranges.length ∧
  ∀ r, r < tr.sample_count → ∃ smp, tr.samples[r]? = some smp ∧
    some smp.range = sensor.ranges[r]? ∧ some smp.intensity = sensor.intensities[r]? ∧
    smp.bearing = 1 ∧ smp.azimuth = 1

/-! ## Command line

`getopt_long` and `atoi` belong to the C library, not to this program.  They
are modelled after their documented behaviour (GNU `getopt_long` in its default
permuting mode, `POSIXLY_CORRECT` unset), as far as `main` uses them: no entry
of `longopts` has a flag pointer, and the option string `"cvrgh?p?"` has no
`:`, so no short option takes an argument.  The messages `getopt_long` writes
to standard error are not represented. -/

/-- The `has_arg` field of a `struct option`. -/
inductive has_arg_t where
  | no_argument
  | required_argument
  | optional_argument
  deriving DecidableEq, Repr

/-- A `struct option` whose `flag` is `NULL`. -/
structure option_t where
  name : String
  has_arg : has_arg_t
  val : Char
  deriving DecidableEq, Repr

/-- The text `USAGE`. -/
def USAGE : String :=
  "USAGE:  stage [options] <worldfile1> [worldfile2 ... worldfileN]\n" ++
  "Available [options] are:\n" ++
  "  --clock        : print simulation time peridically on standard output\n" ++
  "  -c             : equivalent to --clock\n" ++
  "  --gui          : run without a GUI\n" ++
  "  -g             : equivalent to --gui\n" ++
  "  --help         : print this message\n" ++
  "  --args \"str\" : define an argument string to be passed to all controllers\n" ++
  "  -a \"str\"     : equivalent to --args \"str\"\n" ++
  "  --host \"str\" : set the http server host name (default: \"localhost\")\n" ++
  " --port num      : set the http sever port number (default: 8000)\n" ++
  " --verbose       : provide lots of informative output\n" ++
  " -v              : equivalent to --verbose\n" ++
  "  -?             : equivalent to --help\n"

/-- The table `longopts`, without its terminating all-zero entry. -/
def longopts : List option_t :=
  [ { name := "gui", has_arg := has_arg_t.optional_argument, val := 'g' },
    { name := "clock", has_arg := has_arg_t.optional_argument, val := 'c' },
    { name := "help", has_arg := has_arg_t.optional_argument, val := 'h' },
    { name := "args", has_arg := has_arg_t.required_argument, val := 'a' },
    { name := "verbose", has_arg := has_arg_t.no_argument, val := 'v' },
    { name := "port", has_arg := has_arg_t.required_argument, val := 'p' },
    { name := "host", has_arg := has_arg_t.required_argument, val := 'h' },
    { name := "rootdir", has_arg := has_arg_t.required_argument, val := 'r' } ]

/-- The option string passed to `getopt_long`. -/
def optstring : List Char := "cvrgh?p?".toList

/-- One return of `getopt_long` other than `-1`: the value returned, `optarg`
(`none` for `NULL`) and the value of `optindex` after the call. -/
structure Opt where
  ch : Char
  optarg : Option String
  optindex : Nat
  deriving DecidableEq, Repr

/-- `pre` is an initial segment of `s`. -/
def startsWith : List Char → List Char → Bool
  | [], _ => true
  | _ :: _, [] => false
  | a :: as, b :: bs => a == b && startsWith as bs

/-- The first entry, from index `i` on, whose name is exactly `name`. -/
def findExact (name : List Char) : List option_t → Nat → Option (Nat × option_t)
  | [], _ => none
  | p :: ps, i => if p.name.toList = name then some (i, p) else findExact name ps (i + 1)

/-- The entries, from index `i` on, whose names start with `name`. -/
def findAbbrev (name : List Char) : List option_t → Nat → List (Nat × option_t)
  | [], _ => []
  | p :: ps, i =>
    if startsWith name p.name.toList then (i, p) :: findAbbrev name ps (i + 1)
    else findAbbrev name ps (i + 1)

/-- The outcome of looking a long option name up. -/
inductive LongMatch where
  | found (index : Nat) (entry : option_t)
  | ambiguous
  | unknown
  deriving DecidableEq, Repr

/-- Lookup of a long option name: an exact match wins; otherwise the name may
abbreviate one entry, or several entries that agree in `has_arg` and `val`. -/
def lookupLong (table : List option_t) (name : List Char) : LongMatch :=
  match findExact name table 0 with
  | some (i, p) => LongMatch.found i p
  | none =>
    match findAbbrev name table 0 with
    | [] => LongMatch.unknown
    | (i, p) :: rest =>
      if rest.all (fun q => q.2.has_arg = p.has_arg && q.2.val = p.val) then
        LongMatch.found i p
      else LongMatch.ambiguous

/-- Splits the text after `--` at the first `=` into the option name and the
attached argument, if any. -/
def splitEq : List Char → List Char × Option (List Char)
  | [] => ([], none)
  | c :: cs =>
    if c = '=' then ([], some cs)
    else ((c :: (splitEq cs).1), (splitEq cs).2)

/-- The returns of `getopt_long` for the characters of one argument `-xyz`:
a character of the option string is returned as it is, any other gives `?`. -/
def shortCluster (optindex : Nat) : List Char → List Opt
  | [] => []
  | c :: cs =>
    (if c ∈ optstring ∧ c ≠ ':' ∧ c ≠ ';' then
      { ch := c, optarg := none, optindex := optindex }
    else { ch := '?', optarg := none, optindex := optindex }) :: shortCluster optindex cs

/-- What the successive calls of `getopt_long` yield: the returns before the
final `-1`, and the non-option arguments in their order, which the permutation
leaves at `argv[optind], argv[optind + 1], ..`. -/
structure Scan where
  opts : List Opt
  operands : List String
  deriving DecidableEq, Repr

/-- The calls of `getopt_long(argc, argv, "cvrgh?p?", longopts, &optindex)` over
the arguments after `argv[0]`; `optindex` is the current value of that
variable. -/
def scanArgs : Nat → List String → Scan
  | _, [] => { opts := [], operands := [] }
  | optindex, arg :: rest =>
    match arg.toList with
    | ['-', '-'] => { opts := [], operands := rest }
    | '-' :: '-' :: text =>
      match lookupLong longopts (splitEq text).1, (splitEq text).2 with
      | LongMatch.found i p, some value =>
        if p.has_arg = has_arg_t.no_argument then
          let r := scanArgs optindex rest
          { r with opts := { ch := '?', optarg := none, optindex := optindex } :: r.opts }
        else
          let r := scanArgs i rest
          { r with opts := { ch := p.val, optarg := some (String.mk value), optindex := i }
                            :: r.opts }
      | LongMatch.found i p, none =>
        if p.has_arg = has_arg_t.required_argument then
          match rest with
          | [] => { opts := [{ ch := '?', optarg := none, optindex := optindex }],
                    operands := [] }
          | value :: rest1 =>
            let r := scanArgs i rest1
            { r with opts := { ch := p.val, optarg := some value, optindex := i } :: r.opts }
        else
          let r := scanArgs i rest
          { r with opts := { ch := p.val, optarg := none, optindex := i } :: r.opts }
      | _, _ =>
        let r := scanArgs optindex rest
        { r with opts := { ch := '?', optarg := none, optindex := optindex } :: r.opts }
    | '-' :: c :: cs =>
      let r := scanArgs optindex rest
      { r with opts := shortCluster optindex (c :: cs) ++ r.opts }
    | _ =>
      let r := scanArgs optindex rest
      { r with operands := arg :: r.operands }

/-- The C `isspace` in the "C" locale. -/
def isspace (c : Char) : Bool :=
  c = ' ' || c = '\t' || c = '\n' || c = Char.ofNat 11 || c = Char.ofNat 12 || c = '\r'

/-- The value of the longest run of decimal digits at the start of the text,
continuing from `v`. -/
def digitsValue : Nat → List Char → Nat
  | v, [] => v
  | v, c :: cs => if c.isDigit then digitsValue (v * 10 + (c.toNat - 48)) cs else v

/-- `strtol(s, NULL, 10)` with a 64-bit `long`: leading white space, an
optional sign, then digits; the value is clamped to the range of `long`. -/
def strtol10 (s : List Char) : Int :=
  match s.dropWhile isspace with
  | '-' :: cs => max (-(digitsValue 0 cs : Int)) (-(2 ^ 63))
  | '+' :: cs => min (digitsValue 0 cs : Int) (2 ^ 63 - 1)
  | cs => min (digitsValue 0 cs : Int) (2 ^ 63 - 1)

/-- `atoi(s)`: `(int) strtol(s, NULL, 10)` with a 32-bit two's complement
`int`. -/
def atoi (s : String) : Int :=
  (strtol10 s.toList + 2 ^ 31) % 2 ^ 32 - 2 ^ 31

/-- The conversion of an `int` to `unsigned short`. -/
def toUnsignedShort (i : Int) : Nat :=
  (i % 2 ^ 16).toNat

/-- The build constants of `config.h` and the protocol header, neither of which
is among the sources. -/
structure BuildEnv where
  PROJECT : String
  VERSION : String
  AV_DEFAULT_PORT : Nat
  deriving DecidableEq, Repr

/-- The variables `main` sets from the command line, with the static
`Stg::World::ctrlargs`, and the text written to standard output so far. -/
structure Settings where
  usegui : Bool
  showclock : Bool
  host : String
  rootdir : String
  port : Nat
  verbose : Bool
  ctrlargs : String
  stdout : List String
  deriving DecidableEq, Repr

/-- How a run of `main` ends: a call of `exit` with the given argument, a stop on
undefined behaviour (a `NULL` `optarg` passed to `atoi` or to the `std::string`
constructor), or the entry into the poll loop, which has no exit. -/
inductive Ending where
  | exit (status : Int)
  | crash
  | pollLoop
  deriving DecidableEq, Repr

/-- The variables of `main` at their initial values, after the banner
`printf("%s %s ", PROJECT, VERSION)`.  `ctrlargs` starts empty. -/
def initialSettings (env : BuildEnv) : Settings :=
  { usegui := true
    showclock := false
    host := "localhost"
    rootdir := "."
    port := env.AV_DEFAULT_PORT % 2 ^ 16
    verbose := false
    ctrlargs := ""
    stdout := [env.PROJECT ++ " " ++ env.VERSION ++ " "] }

/-- The `switch (ch)` of the option loop for one return of `getopt_long`: the
new settings, or the way the process ends there.  `getopt_long` returns 0 only
for an entry with a flag pointer and `longopts` has none; the `case 0` branch
is kept for a `val` of 0. -/
def optionSwitch (o : Opt) (st : Settings) : Except (Settings × Ending) Settings :=
  if o.ch = Char.ofNat 0 then
    Except.ok { st with stdout := st.stdout ++
      ["option " ++ ((longopts.map (fun p => p.name)).getD o.optindex "(null)") ++ " given\n"] }
  else if o.ch = 'a' then
    match o.optarg with
    | some s => Except.ok { st with ctrlargs := s }
    | none => Except.error (st, Ending.crash)
  else if o.ch = 'c' then
    Except.ok { st with showclock := true, stdout := st.stdout ++ ["[Clock enabled]"] }
  else if o.ch = 'g' then
    Except.ok { st with usegui := false, stdout := st.stdout ++ ["[GUI disabled]"] }
  else if o.ch = 'p' then
    match o.optarg with
    | some s => Except.ok { st with port := toUnsignedShort (atoi s) }
    | none => Except.error (st, Ending.crash)
  else if o.ch = 'h' then
    match o.optarg with
    | some s => Except.ok { st with host := s }
    | none => Except.error (st, Ending.crash)
  else if o.ch = 'r' then
    match o.optarg with
    | some s => Except.ok { st with rootdir := s }
    | none => Except.error (st, Ending.crash)
  else if o.ch = 'v' then
    Except.ok { st with verbose := true }
  else if o.ch = '?' then
    Except.error ({ st with stdout := st.stdout ++ [USAGE ++ "\n"] }, Ending.exit 0)
  else
    Except.ok { st with stdout := st.stdout ++
      ["unhandled option " ++ String.singleton o.ch ++ "\n", USAGE ++ "\n"] }

/-- The option loop `while ((ch = getopt_long(..)) != -1) switch (ch) ..` over
the returns of `getopt_long`. -/
def optionLoop : List Opt → Settings → Except (Settings × Ending) Settings
  | [], st => Except.ok st
  | o :: os, st =>
    match optionSwitch o st with
    | Except.ok st => optionLoop os st
    | Except.error e => Except.error e

/-- A call of `main` into the protocol server or the simulator. -/
inductive Call where
  | av_init (host : String) (port : Nat) (rootdir : String) (verbose : Bool)
      (project version : String)
  | av_install_generic_callbacks
  | av_install_typed_callbacks (type : av_type_t)
  | newWorldGui (worldfile : String)
  | newWorld (worldfile : String)
  | Load (worldfile : String)
  | ShowClock (showclock : Bool)
  | av_install_clock_callbacks
  | av_startup
  | ForEachDescendant (registered : Registry)
  | Start
  deriving DecidableEq, Repr

/-- A run of `main` up to the point where it leaves the start-up code: the
settings and output at that point, the world file name if the world-file check
was passed, the calls made in their order, and the way the start-up ends. -/
structure MainRun where
  settings : Settings
  worldfilename : Option String
  calls : List Call
  ending : Ending
  deriving DecidableEq, Repr

/-- `main(argc, argv)`.  `world` is the model tree that `world->Load` builds from
the world file and `paused` the world's `paused` flag after loading.
`Stg::Init` leaves `argc` and `argv` as they are. -/
def main (env : BuildEnv) (world : ModelList) (paused : Bool) (argv : List String) :
    MainRun :=
  let scan := scanArgs 0 (argv.drop 1)
  match optionLoop scan.opts (initialSettings env) with
  | Except.error (st, e) =>
    { settings := st, worldfilename := none, calls := [], ending := e }
  | Except.ok st =>
    match scan.operands.head? with
    | none =>
      { settings := { st with stdout := st.stdout ++
          ["[AvonStage] no worldfile specified on command line. Quit.\n\n"] }
        worldfilename := none, calls := [], ending := Ending.exit (-1) }
    | some worldfilename =>
      let st := { st with stdout := st.stdout ++ ["\n",
        "[AvonStage] host " ++ st.host ++ ":" ++ toString st.port ++ " world " ++
          worldfilename ++ "\n"] }
      { settings := st
        worldfilename := some worldfilename
        calls :=
          [ Call.av_init st.host st.port st.rootdir st.verbose env.PROJECT env.VERSION,
            Call.av_install_generic_callbacks,
            Call.av_install_typed_callbacks av_type_t.AV_MODEL_RANGER,
            (if st.usegui then Call.newWorldGui worldfilename
              else Call.newWorld worldfilename),
            Call.Load worldfilename,
            Call.ShowClock st.showclock,
            Call.av_install_clock_callbacks,
            Call.av_startup,
            Call.ForEachDescendant (registerWorld world) ] ++
          (if paused then [] else [Call.Start])
        ending := Ending.pollLoop }

/-- The build constants used in the examples. -/
def envSample : BuildEnv :=
  { PROJECT := "Stage", VERSION := "4.0.0", AV_DEFAULT_PORT := 8000 }

/-- Argument lists made only of options that the option loop accepts and that
ask for no help: the flags `-c`, `-g`, `-v`, `--clock`, `--gui`, `--verbose`, and
`--port`, `--host`, `--rootdir`, `--args` each followed by its argument. -/
inductive PlainOptions : List String → Prop where
  | nil : PlainOptions []
  | flag (arg : String) (rest : List String) :
      arg ∈ ["-c", "-g", "-v", "--clock", "--gui", "--verbose"] →
      PlainOptions rest → PlainOptions (arg :: rest)
  | valued (name value : String) (rest : List String) :
      name ∈ ["--port", "--host", "--rootdir", "--args"] →
      PlainOptions rest → PlainOptions (name :: value :: rest)

/-- An argument holding an option the parser does not recognize: a cluster
`-xyz` one of whose characters is not in the option string, or `--name..` with a
name that neither is nor abbreviates a name of `longopts`. -/
def Unrecognized (arg : String) : Prop :=
  (∃ cs c, arg.toList = '-' :: cs ∧ cs.head? ≠ some '-' ∧ c ∈ cs ∧ c ∉ optstring) ∨
  (∃ text, arg.toList = '-' :: '-' :: text ∧ text ≠ [] ∧
    lookupLong longopts (splitEq text).1 = LongMatch.unknown)

/-- The returns of `getopt_long` that come before its first return of `?`. -/
def beforeQuestion (opts : List Opt) : List Opt :=
  opts.takeWhile (fun o => decide (o.ch ≠ '?'))

/-! ## Ranger command and configuration callbacks -/

/-- `RangerCmd(mod, data)`: the model, the command packet and standard output
after the call, and the `int` result.  The packet type is the protocol's. -/
def RangerCmd {M C : Type} (mod : M) (data : C) (stdout : List String) :
    (M × C × List String) × Int :=
  let stdout := stdout ++ ["ranger command does nothing\n"]
  ((mod, data, stdout), 0)

/-- `RangerCfgSet(mod, data)`: the model, the configuration packet and standard
output after the call, and the `int` result. -/
def RangerCfgSet {M C : Type} (mod : M) (data : C) (stdout : List String) :
    (M × C × List String) × Int :=
  let stdout := stdout ++ ["ranger setcfg does nothing\n"]
  ((mod, data, stdout), 0)

/-- `RangerCfgGet(mod, data)`: the model, the configuration packet and standard
output after the call, and the `int` result. -/
def RangerCfgGet {M C : Type} (mod : M) (data : C) (stdout : List String) :
    (M × C × List String) × Int :=
  let stdout := stdout ++ ["ranger getcfg does nothing\n"]
  ((mod, data, stdout), 0)

/-! ## Calls into the model -/

/-- A state-changing call on a model: one of the three setters, or `Redraw`. -/
inductive ModelCall (α : Type) where
  | SetPose (p : Pose α)
  | SetVelocity (v : Velocity α)
  | SetGeom (g : Geom α)
  | Redraw
  deriving DecidableEq, Repr

/-- A model interface that does what `ops` does and records, next to the model
state, every state-changing call it receives, in order. -/
def tracedOps {M α : Type} (ops : ModelOps M α) : ModelOps (M × List (ModelCall α)) α where
  SimTimeNow := fun m => ops.SimTimeNow m.1
  GetPose := fun m => ops.GetPose m.1
  SetPose := fun m p => (ops.SetPose m.1 p, m.2 ++ [ModelCall.SetPose p])
  GetVelocity := fun m => ops.GetVelocity m.1
  SetVelocity := fun m v => (ops.SetVelocity m.1 v, m.2 ++ [ModelCall.SetVelocity v])
  GetGeom := fun m => ops.GetGeom m.1
  SetGeom := fun m g => (ops.SetGeom m.1 g, m.2 ++ [ModelCall.SetGeom g])
  Redraw := fun m => (ops.Redraw m.1, m.2 ++ [ModelCall.Redraw])
  GetSensors := fun m => ops.GetSensors m.1

/-- Two model interfaces answer every read (time, pose, velocity, geometry) of
their models alike; nothing is said about their setters and `Redraw`. -/
def SameReads {M N α : Type} (ops : ModelOps M α) (m : M) (ops1 : ModelOps N α) (n : N) :
    Prop :=
  ops.SimTimeNow m = ops1.SimTimeNow n ∧ ops.GetPose m = ops1.GetPose n ∧
  ops.GetVelocity m = ops1.GetVelocity n ∧ ops.GetGeom m = ops1.GetGeom n

/-! ## Poll loop -/

/-- What a tick of the poll loop could do: the three calls of the loop body,
and `world->Update()`, the simulator's own step, which the loop body does not
contain. -/
inductive LoopAction where
  | Fl_check
  | av_check
  | usleep (usec : Nat)
  | world_Update
  deriving DecidableEq, Repr

/-- The body of the poll loop: `Fl::check(); av_check(); usleep(100);`. -/
def pollTick : List LoopAction :=
  [LoopAction.Fl_check, LoopAction.av_check, LoopAction.usleep 100]

/-- The loop `while (1) { .. }` run for at most `fuel` iterations: the actions
performed, and whether the loop was left (its condition found false) within
them. -/
def pollLoop : Nat → List LoopAction × Bool
  | 0 => ([], false)
  | fuel + 1 =>
    if (1 : Int) ≠ 0 then
      (pollTick ++ (pollLoop fuel).1, (pollLoop fuel).2)
    else ([], true)

/-! ## The static ranger buffer across calls -/

/-- Whether a call of `main` is the registration walk. -/
def Call.isWalk : Call → Bool
  | Call.ForEachDescendant _ => true
  | _ => false

/-- A ranger whose sensor has four samples, one more than `limSample` allows in
a transducer record. -/
def fourSampleRanger : StoredModel Int :=
  { simtime := 42
    pose := Pose.mk 0 0 0 0
    velocity := Velocity.mk 0 0 0 0
    geom := Geom.mk (Pose.mk 0 0 0 0) (Size.mk 1 1 1)
    redraws := 0
    sensors := some [{ pose := Pose.mk 1 2 3 4, ranges := [10, 11, 12, 13],
                       intensities := [20, 21, 22, 23] }] }

/-- In a sequence of registrations, every device whose model has a parent comes
after a device registered for that parent, or the parent is among the models
`seen` before the sequence. -/
def ParentsFirst : List Model → List Device → Prop
  | _, [] => True
  | seen, d :: ds =>
    (∀ par, d.handle.Parent = some par → par ∈ seen) ∧ ParentsFirst (d.handle :: seen) ds

/-! ## Floating-point comparisons

`vis_strip.cc` and `wander_pioneer.cc` compare `float` and `double` values.  For
these a value is either not-a-number or a number of a linearly ordered type
`α` (which may hold the infinities); a comparison with not-a-number is false,
as in IEEE 754.  No arithmetic is done on the values. -/

/-- A `float` or `double` as far as copying and comparing go. -/
inductive CFloat (α : Type) where
  | nan
  | num (x : α)
  deriving DecidableEq, Repr

/-- The comparison `a < b` of two floating-point values. -/
def CFloat.lt {α : Type} [LinearOrder α] : CFloat α → CFloat α → Bool
  | CFloat.num a, CFloat.num b => decide (a < b)
  | _, _ => false

/-- The comparison `a <= b` of two floating-point values. -/
def CFloat.le {α : Type} [LinearOrder α] : CFloat α → CFloat α → Bool
  | CFloat.num a, CFloat.num b => decide (a ≤ b)
  | _, _ => false

/-- The macro `MIN(a, b)`.  Its definition is not among the sources; it is
taken as the customary `((a) < (b) ? (a) : (b))`. -/
def MIN {α : Type} [LinearOrder α] (a b : CFloat α) : CFloat α :=
  if CFloat.lt a b then a else b

/-- The macro `MAX(a, b)`.  Its definition is not among the sources; it is
taken as the customary `((a) > (b) ? (a) : (b))`. -/
def MAX {α : Type} [LinearOrder α] (a b : CFloat α) : CFloat α :=
  if CFloat.lt b a then a else b

/-- The values of the floating-point literals of the two files in the
number type. -/
structure Literals (α : Type) where
  lit_1e32 : α
  lit_neg_1e32 : α
  lit_1e6 : α

/-! ## Strip plot visualizer (`vis_strip.cc`) -/

/-- The members of a `StripPlotVis` (those of the base class `Visualizer`
apart).  `data` is the array `float[len]`; `len` and `count` are taken as
unbounded counters. -/
structure StripPlotVis (α : Type) where
  data : List (CFloat α)
  len : Nat
  count : Nat
  x : CFloat α
  y : CFloat α
  w : CFloat α
  h : CFloat α
  min : CFloat α
  max : CFloat α
  fgcolor : Nat
  bgcolor : Nat

/-- The constructor `StripPlotVis::StripPlotVis(x, y, w, h, len, fgcolor,
bgcolor, name, wfname)`: the member initialisers, then the `memset` that zeroes
the data. -/
def StripPlotVis.new {α : Type} [Zero α] (lits : Literals α) (x y w h : CFloat α) (len : Nat)
    (fgcolor bgcolor : Nat) : StripPlotVis α :=
  { data := List.replicate len (CFloat.num 0)
    len := len
    count := 0
    x := x
    y := y
    w := w
    h := h
    min := CFloat.num lits.lit_1e32
    max := CFloat.num lits.lit_neg_1e32
    fgcolor := fgcolor
    bgcolor := bgcolor }

/-- `StripPlotVis::AppendValue(value)`: the plot after the call, `none` when the
call is undefined (`count % len` with `len == 0`, or a write outside
`data`). -/
def StripPlotVis.AppendValue {α : Type} [LinearOrder α] (p : StripPlotVis α)
    (value : CFloat α) : Option (StripPlotVis α) :=
  if p.len = 0 then none
  else if p.count % p.len < p.data.length then
    let p := { p with data := p.data.set (p.count % p.len) value }
    let p := { p with count := p.count + 1 }
    let p := { p with min := MIN value p.min }
    let p := { p with max := MAX value p.max }
    some p
  else none

/-- A sequence of `AppendValue` calls, one for each value in order. -/
def StripPlotVis.appendValues {α : Type} [LinearOrder α] :
    StripPlotVis α → List (CFloat α) → Option (StripPlotVis α)
  | p, [] => some p
  | p, v :: vs =>
    match p.AppendValue v with
    | some p1 => StripPlotVis.appendValues p1 vs
    | none => none

/-! ## Pioneer wander controller (`wander_pioneer.cc`) -/

/-- A detected fiducial, `ModelFiducial::Fiducial`: the members
`FiducialUpdate` reads. -/
structure Fiducial (α : Type) where
  range : CFloat α
  bearing : CFloat α
  geom : Pose (CFloat α)
  deriving DecidableEq, Repr

/-- The members of `robot_t` that `FiducialUpdate` writes; the four model
pointers `laser`, `position`, `ranger`, `fiducial` are not touched.  The pointer
`closest` is the index of its target in the vector `fid->GetFiducials()`,
`none` for `NULL`. -/
structure robot_t (α : Type) where
  closest : Option Nat
  closest_bearing : CFloat α
  closest_range : CFloat α
  closest_heading_error : CFloat α
  deriving DecidableEq, Repr

/-- The loop `FOR_EACH( it, fid->GetFiducials() )` of `FiducialUpdate` from
element `i` on: the values of `dist` and `robot->closest` after it.  The macro
`FOR_EACH` is not among the sources; it is taken as the iteration over the
container from `begin()` to `end()`. -/
def closestLoop {α : Type} [LinearOrder α] :
    List (Fiducial α) → Nat → CFloat α → Option Nat → CFloat α × Option Nat
  | [], _, dist, closest => (dist, closest)
  | other :: rest, i, dist, closest =>
    if CFloat.lt other.range dist then
      closestLoop rest (i + 1) other.range (some i)
    else
      closestLoop rest (i + 1) dist closest

/-- `FiducialUpdate(fid, robot)`: `fiducials` is the vector
`fid->GetFiducials()`; the result is `*robot` after the call and the `int`
returned, `none` if `robot->closest` were followed outside the vector. -/
def FiducialUpdate {α : Type} [LinearOrder α] (lits : Literals α)
    (fiducials : List (Fiducial α)) (robot : robot_t α) : Option (robot_t α × Int) :=
  let dist := CFloat.num lits.lit_1e6
  let robot := { robot with closest := none }
  let robot := { robot with closest := (closestLoop fiducials 0 dist robot.closest).2 }
  match robot.closest with
  | some i =>
    match fiducials[i]? with
    | some c =>
      let robot := { robot with closest_bearing := c.bearing }
      let robot := { robot with closest_range := c.range }
      let robot := { robot with closest_heading_error := c.geom.a }
      some (robot, 0)
    | none => none
  | none => some (robot, 0)

/-- The ring-buffer state of a plot of length `len` after the values `done`
have been appended: `count` is their number, the slot `k mod len` holds value
`k` for each of the last `len` values, and the slots not yet written hold 0. -/
def RingInv {α : Type} [Zero α] (len : Nat) (p : StripPlotVis α) (done : List (CFloat α)) :
    Prop :=
  p.len = len ∧ p.data.length = len ∧ p.count = done.length ∧
  (∀ k, done.length - len ≤ k → k < done.length → p.data[k % len]? = done[k]?) ∧
  (∀ j, done.length ≤ j → j < len → p.data[j]? = some (CFloat.num 0))

/-- The bounds of a plot after the values `done` have been appended: `min` and
`max` are numbers, each is its initial bound or one of the values, `min` is
below the initial bound `1e32` and every value, `max` above the initial bound
`-1e32` and every value. -/
def BoundsInv {α : Type} [LinearOrder α] (lits : Literals α) (p : StripPlotVis α)
    (done : List (CFloat α)) : Prop :=
  ∃ lo hi, p.min = CFloat.num lo ∧ p.max = CFloat.num hi ∧
    (lo = lits.lit_1e32 ∨ CFloat.num lo ∈ done) ∧
    (hi = lits.lit_neg_1e32 ∨ CFloat.num hi ∈ done) ∧
    lo ≤ lits.lit_1e32 ∧ lits.lit_neg_1e32 ≤ hi ∧
    ∀ x, CFloat.num x ∈ done → lo ≤ x ∧ x ≤ hi

/-- The literals as integers. -/
def litsSample : Literals Int :=
  { lit_1e32 := 10 ^ 32, lit_neg_1e32 := -(10 ^ 32), lit_1e6 := 10 ^ 6 }

/-- A fresh strip plot with room for three values. -/
def plotSample : StripPlotVis Int :=
  StripPlotVis.new litsSample (CFloat.num 0) (CFloat.num 0) (CFloat.num 100) (CFloat.num 50)
    3 1 2

/-- Three detected fiducials: ranges 7, 4 and 4. -/
def fiducialsSample : List (Fiducial Int) :=
  [ { range := CFloat.num 7, bearing := CFloat.num 1,
      geom := Pose.mk (CFloat.num 0) (CFloat.num 0) (CFloat.num 0) (CFloat.num 11) },
    { range := CFloat.num 4, bearing := CFloat.num 2,
      geom := Pose.mk (CFloat.num 0) (CFloat.num 0) (CFloat.num 0) (CFloat.num 12) },
    { range := CFloat.num 4, bearing := CFloat.num 3,
      geom := Pose.mk (CFloat.num 0) (CFloat.num 0) (CFloat.num 0) (CFloat.num 13) } ]

/-- A robot that has not seen anyone. -/
def robotSample : robot_t Int :=
  { closest := none, closest_bearing := CFloat.num 0, closest_range := CFloat.num 0,
    closest_heading_error := CFloat.num 0 }

/-- A ranger with one sensor whose range and intensity sequences have
`AV_RANGER_SAMPLES_MAX + 1` elements each. -/
def overflowModel (lim : AvLimits) : StoredModel Int :=
  { simtime := 42
    pose := Pose.mk 0 0 0 0
    velocity := Velocity.mk 0 0 0 0
    geom := Geom.mk (Pose.mk 0 0 0 0) (Size.mk 1 1 1)
    redraws := 0
    sensors := some [{ pose := Pose.mk 0 0 0 0
                       ranges := List.replicate (lim.AV_RANGER_SAMPLES_MAX + 1) 5
                       intensities := List.replicate (lim.AV_RANGER_SAMPLES_MAX + 1) 9 }] }

/-- A ranger with two sensors of two and three samples. -/
def rangerSample : StoredModel Int :=
  { simtime := 42
    pose := Pose.mk 0 0 0 0
    velocity := Velocity.mk 0 0 0 0
    geom := Geom.mk (Pose.mk 0 0 0 0) (Size.mk 1 1 1)
    redraws := 0
    sensors := some [{ pose := Pose.mk 1 2 3 4, ranges := [10, 11], intensities := [20, 21] },
                     { pose := Pose.mk 5 6 7 8, ranges := [12, 13, 14],
                       intensities := [22, 23, 24] }] }

/-- A ranger with three sensors of one sample each. -/
def crowdedSample : StoredModel Int :=
  { simtime := 42
    pose := Pose.mk 0 0 0 0
    velocity := Velocity.mk 0 0 0 0
    geom := Geom.mk (Pose.mk 0 0 0 0) (Size.mk 1 1 1)
    redraws := 0
    sensors := some [{ pose := Pose.mk 1 2 3 4, ranges := [10], intensities := [20] },
                     { pose := Pose.mk 1 2 3 4, ranges := [10], intensities := [20] },
                     { pose := Pose.mk 1 2 3 4, ranges := [10], intensities := [20] }] }

/-- Packet bounds used in the examples: two transducers of three samples. -/
def limSample : AvLimits :=
  { AV_RANGER_TRANSDUCERS_MAX := 2, AV_RANGER_SAMPLES_MAX := 3 }

/-- A world with a robot carrying a ranger and a gripper, and a second,
childless robot. -/
def worldSample : ModelList :=
  ModelList.node "r0" "position"
    (ModelList.node "r0.ranger" "ranger" ModelList.nil
      (ModelList.node "r0.gripper" "gripper" ModelList.nil ModelList.nil))
    (ModelList.node "r1" "position" ModelList.nil ModelList.nil)

/-- The geometry packet written in the failing round trip: pose
`[1, 2, 3, 0, 0, 7]` (heading 7 in slot 5) and extents `[4, 5, 6]`. -/
def geomSample : av_geom_t Int :=
  { time := 0, pose := ![1, 2, 3, 0, 0, 7], extent := ![4, 5, 6] }

/-- A model at rest at the origin, at simulated time 42. -/
def modelSample : StoredModel Int :=
  { simtime := 42
    pose := Pose.mk 0 0 0 0
    velocity := Velocity.mk 0 0 0 0
    geom := Geom.mk (Pose.mk 0 0 0 0) (Size.mk 1 1 1)
    redraws := 0
    sensors := none }

/-- A PVA packet with every slot distinct and non-zero. -/
def pvaSample : av_pva_t Int :=
  { time := 0, p := ![1, 2, 3, 4, 5, 6], v := ![7, 8, 9, 10, 11, 12] }

/-! # Properties -/

/-- The stored-attribute model returns the pose and velocity last stored. -/
theorem storedOps_storesPV (α : Type) : (storedOps α).StoresPV :=
  ⟨fun _ _ => rfl, fun _ _ => rfl, fun _ _ => rfl⟩

/-- The stored-attribute model returns the geometry last stored. -/
theorem storedOps_storesGeom (α : Type) : (storedOps α).StoresGeom :=
  ⟨fun _ _ => rfl, fun _ => rfl⟩

/-- What `GetModelGeom` returns after `SetModelGeom`, slot by slot, for a model
that stores its geometry. -/
theorem geom_roundtrip_slots {M α : Type} [Zero α] (ops : ModelOps M α)
    (h : ops.StoresGeom) (m : M) (G G0 : av_geom_t α) :
    (geomRoundTrip ops m G G0).pose 0 = G.pose 0 ∧
    (geomRoundTrip ops m G G0).pose 1 = G.pose 1 ∧
    (geomRoundTrip ops m G G0).pose 2 = G.pose 5 ∧
    (geomRoundTrip ops m G G0).pose 3 = 0 ∧
    (geomRoundTrip ops m G G0).pose 4 = 0 ∧
    (geomRoundTrip ops m G G0).pose 5 = 0 ∧
    (geomRoundTrip ops m G G0).extent 0 = G.extent 0 ∧
    (geomRoundTrip ops m G G0).extent 1 = G.extent 1 ∧
    (geomRoundTrip ops m G G0).extent 2 = G.extent 2 := by
  obtain ⟨h1, h2⟩ := h
  simp [geomRoundTrip, GetModelGeom, SetModelGeom, h1, h2, av_geom_t.zero, Function.update]

/-- C1 (evaluation at the failing input): writing the packet with pose
`[1, 2, 3, 0, 0, 7]` and reading the geometry back gives pose
`[1, 2, 7, 0, 0, 0]`.  The heading `7` written in slot 5 comes back in slot 2,
slot 5 reads `0`; only x, y and the three extents keep their slots. -/
theorem C1_geom_roundtrip_moves_heading :
    geomSample.pose 5 = 7 ∧
    (geomRoundTrip (storedOps Int) modelSample geomSample (av_geom_t.zero Int)).pose 5 = 0 ∧
    geomSample.pose 2 = 3 ∧
    (geomRoundTrip (storedOps Int) modelSample geomSample (av_geom_t.zero Int)).pose 2 = 7 ∧
    (geomRoundTrip (storedOps Int) modelSample geomSample (av_geom_t.zero Int)).pose 0 =
      geomSample.pose 0 ∧
    (geomRoundTrip (storedOps Int) modelSample geomSample (av_geom_t.zero Int)).pose 1 =
      geomSample.pose 1 ∧
    (geomRoundTrip (storedOps Int) modelSample geomSample (av_geom_t.zero Int)).extent 0 =
      geomSample.extent 0 ∧
    (geomRoundTrip (storedOps Int) modelSample geomSample (av_geom_t.zero Int)).extent 1 =
      geomSample.extent 1 ∧
    (geomRoundTrip (storedOps Int) modelSample geomSample (av_geom_t.zero Int)).extent 2 =
      geomSample.extent 2 := by
  decide

/-- C2: for a model whose `GetPose`/`GetVelocity` return what
`SetPose`/`SetVelocity` last stored, `SetModelPVA(m, P)` followed by
`GetModelPVA(m, P0)` yields a packet whose slots 0, 1, 2, 5 of `p` and of `v`
equal those of `P` and whose roll/pitch slots 3 and 4 are zero, whatever `P`
(and the output packet `P0`) held in them. -/
theorem C2_pva_roundtrip {M α : Type} [Zero α] (ops : ModelOps M α)
    (h : ops.StoresPV) (m : M) (P P0 : av_pva_t α) :
    ((pvaRoundTrip ops m P P0).p 0 = P.p 0 ∧ (pvaRoundTrip ops m P P0).p 1 = P.p 1 ∧
      (pvaRoundTrip ops m P P0).p 2 = P.p 2 ∧ (pvaRoundTrip ops m P P0).p 5 = P.p 5) ∧
    ((pvaRoundTrip ops m P P0).v 0 = P.v 0 ∧ (pvaRoundTrip ops m P P0).v 1 = P.v 1 ∧
      (pvaRoundTrip ops m P P0).v 2 = P.v 2 ∧ (pvaRoundTrip ops m P P0).v 5 = P.v 5) ∧
    ((pvaRoundTrip ops m P P0).p 3 = 0 ∧ (pvaRoundTrip ops m P P0).p 4 = 0 ∧
      (pvaRoundTrip ops m P P0).v 3 = 0 ∧ (pvaRoundTrip ops m P P0).v 4 = 0) := by
  obtain ⟨h1, h2, h3⟩ := h
  simp [pvaRoundTrip, GetModelPVA, SetModelPVA, h1, h2, h3, av_pva_t.zero, Function.update]

/-- C2 at a concrete packet: the stored-attribute model and the packet
`p = [1..6]`, `v = [7..12]`, whose roll/pitch slots hold 4, 5, 10, 11. -/
theorem C2_pva_roundtrip_witness :
    (storedOps Int).StoresPV ∧
    (pvaRoundTrip (storedOps Int) modelSample pvaSample pvaSample).p 5 = 6 ∧
    (pvaRoundTrip (storedOps Int) modelSample pvaSample pvaSample).v 5 = 12 ∧
    (pvaRoundTrip (storedOps Int) modelSample pvaSample pvaSample).p 3 = 0 ∧
    (pvaRoundTrip (storedOps Int) modelSample pvaSample pvaSample).v 4 = 0 :=
  have h := C2_pva_roundtrip (storedOps Int) (storedOps_storesPV Int) modelSample
    pvaSample pvaSample
  ⟨storedOps_storesPV Int, h.1.2.2.2, h.2.1.2.2.2, h.2.2.1, h.2.2.2.2.2⟩

/-! ## Registration walk -/

/-- The device `RegisterModel` registers for a model. -/
theorem RegisterModel_fst (mod : Model) (reg : Registry) :
    (RegisterModel mod reg).1 = reg ++ (RegisterModel mod []).1 := by
  simp [RegisterModel, av_register_model]

/-- The walk only appends to the registry. -/
theorem ForEachDescendant_append (l : ModelList) :
    ∀ (anc : List (String × String)) (reg : Registry),
      ForEachDescendant RegisterModel anc l reg =
        reg ++ ForEachDescendant RegisterModel anc l [] := by
  induction l with
  | nil => intro anc reg; simp [ForEachDescendant]
  | node tok ty kids sibs ihk ihs =>
    intro anc reg
    simp only [ForEachDescendant]
    rw [ihs anc (ForEachDescendant RegisterModel ((tok, ty) :: anc) kids _),
      ihk ((tok, ty) :: anc) (RegisterModel _ reg).1, RegisterModel_fst _ reg,
      ihs anc (ForEachDescendant RegisterModel ((tok, ty) :: anc) kids _),
      ihk ((tok, ty) :: anc) (RegisterModel _ []).1]
    simp [List.append_assoc]

/-- Unfolding of the walk on a non-empty child list, on the empty registry. -/
theorem ForEachDescendant_node (anc : List (String × String)) (tok ty : String)
    (kids sibs : ModelList) :
    ForEachDescendant RegisterModel anc (ModelList.node tok ty kids sibs) [] =
      (RegisterModel { token := tok, type := ty, ancestors := anc } []).1 ++
        ForEachDescendant RegisterModel ((tok, ty) :: anc) kids [] ++
        ForEachDescendant RegisterModel anc sibs [] := by
  simp only [ForEachDescendant]
  rw [ForEachDescendant_append sibs, ForEachDescendant_append kids]

/-- Name and parent name of the device registered for a model. -/
theorem RegisterModel_device (tok ty : String) (anc : List (String × String)) (d : Device)
    (h : d ∈ (RegisterModel { token := tok, type := ty, ancestors := anc } []).1) :
    d.name = tok ∧ d.parent_name = (anc.head?).map Prod.fst := by
  cases anc with
  | nil =>
    simp [RegisterModel, av_register_model, Model.Parent, Model.Token, Model.GetModelType] at h
    subst h; simp
  | cons a rest =>
    obtain ⟨t, y⟩ := a
    simp [RegisterModel, av_register_model, Model.Parent, Model.Token, Model.GetModelType] at h
    subst h; simp

/-- A call of `RegisterModel` registers a device for its model. -/
theorem RegisterModel_registers (tok ty : String) (anc : List (String × String)) :
    ∃ d ∈ (RegisterModel { token := tok, type := ty, ancestors := anc } []).1,
      d.name = tok ∧ d.parent_name = (anc.head?).map Prod.fst := by
  cases anc with
  | nil =>
    simp [RegisterModel, av_register_model, Model.Parent, Model.Token, Model.GetModelType]
  | cons a rest =>
    obtain ⟨t, y⟩ := a
    simp [RegisterModel, av_register_model, Model.Parent, Model.Token, Model.GetModelType]

/-- Every device the walk registers belongs to a model of the tree. -/
theorem walk_sound (l : ModelList) :
    ∀ (anc : List (String × String)) (d : Device),
      d ∈ ForEachDescendant RegisterModel anc l [] →
      Occurs ((anc.head?).map Prod.fst) l d.name d.parent_name := by
  induction l with
  | nil => intro anc d h; simp [ForEachDescendant] at h
  | node tok ty kids sibs ihk ihs =>
    intro anc d h
    rw [ForEachDescendant_node] at h
    simp only [List.mem_append] at h
    rcases h with (h | h) | h
    · obtain ⟨h1, h2⟩ := RegisterModel_device tok ty anc d h
      rw [h1, h2]
      exact Occurs.here _ tok ty kids sibs
    · have := ihk ((tok, ty) :: anc) d h
      exact Occurs.inChild _ tok ty kids sibs _ _ (by simpa using this)
    · exact Occurs.inSibling _ tok ty kids sibs _ _ (ihs anc d h)

/-- Every model of the tree gets a device from the walk. -/
theorem walk_complete (owner : Option String) (l : ModelList) (t : String)
    (p : Option String) (h : Occurs owner l t p) :
    ∀ anc : List (String × String), owner = (anc.head?).map Prod.fst →
      ∃ d ∈ ForEachDescendant RegisterModel anc l [], d.name = t ∧ d.parent_name = p := by
  induction h with
  | here owner tok ty kids sibs =>
    intro anc hanc
    obtain ⟨d, hd, h1, h2⟩ := RegisterModel_registers tok ty anc
    refine ⟨d, ?_, h1, by rw [h2, hanc]⟩
    rw [ForEachDescendant_node]
    simp only [List.mem_append]
    left; left; exact hd
  | inChild owner tok ty kids sibs t p _ ih =>
    intro anc _
    obtain ⟨d, hd, h1, h2⟩ := ih ((tok, ty) :: anc) (by simp)
    refine ⟨d, ?_, h1, h2⟩
    rw [ForEachDescendant_node]
    simp only [List.mem_append]
    left; right; exact hd
  | inSibling owner tok ty kids sibs t p _ ih =>
    intro anc hanc
    obtain ⟨d, hd, h1, h2⟩ := ih anc hanc
    refine ⟨d, ?_, h1, h2⟩
    rw [ForEachDescendant_node]
    simp only [List.mem_append]
    right; exact hd

/-- The device of a `RegisterModel` call is named after its model and carries
the token of the model's `Parent()`. -/
theorem RegisterModel_handle (mod : Model) (d : Device) (h : d ∈ (RegisterModel mod []).1) :
    d.name = d.handle.Token ∧ d.parent_name = d.handle.Parent.map Model.Token := by
  simp only [RegisterModel, av_register_model, List.nil_append, List.mem_singleton] at h
  subst h
  refine ⟨rfl, ?_⟩
  cases hp : mod.Parent <;> simp

/-- Every device of the walk is named after its model and carries the token of
the model's `Parent()`. -/
theorem walk_handle (l : ModelList) :
    ∀ (anc : List (String × String)) (d : Device),
      d ∈ ForEachDescendant RegisterModel anc l [] →
      d.name = d.handle.Token ∧ d.parent_name = d.handle.Parent.map Model.Token := by
  induction l with
  | nil => intro anc d h; simp [ForEachDescendant] at h
  | node tok ty kids sibs ihk ihs =>
    intro anc d h
    rw [ForEachDescendant_node] at h
    simp only [List.mem_append] at h
    rcases h with (h | h) | h
    · exact RegisterModel_handle _ d h
    · exact ihk _ d h
    · exact ihs _ d h

/-- C3: for every model tree, after the registration walk, (1) every registered
device has its model's token as name and the token of the model's `Parent()` as
parent name, and has no parent name exactly when the model has no parent;
(2) the model of every registered device is a model of the simulation tree and
the parent name is the token of its parent in the tree; (3) every model of the
tree has such a device. -/
theorem C3_registered_parent_names (world : ModelList) :
    (∀ d ∈ registerWorld world,
      d.name = d.handle.Token ∧
      d.parent_name = d.handle.Parent.map Model.Token ∧
      (d.parent_name = none ↔ d.handle.Parent = none)) ∧
    (∀ d ∈ registerWorld world, Occurs none world d.name d.parent_name) ∧
    (∀ (t : String) (p : Option String), Occurs none world t p →
      ∃ d ∈ registerWorld world, d.name = t ∧ d.parent_name = p) := by
  refine ⟨?_, ?_, ?_⟩
  · intro d hd
    obtain ⟨h1, h2⟩ := walk_handle world [] d hd
    refine ⟨h1, h2, ?_⟩
    rw [h2]
    cases d.handle.Parent <;> simp
  · intro d hd
    exact walk_sound world [] d hd
  · intro t p h
    exact walk_complete none world t p h [] rfl

/-! ## Ranger data -/

/-- A write to a sample inside the array succeeds and replaces that sample. -/
theorem writeSample_inside {α : Type} (tr : av_ranger_transducer_data_t α) (r : Nat)
    (f : av_sample_t α → av_sample_t α) (h : r < tr.samples.length) :
    writeSample tr r f = some { tr with samples := tr.samples.set r (f tr.samples[r]) } := by
  simp [writeSample, List.getElem?_eq_getElem h]

/-- A write to a sample outside the array is a fault. -/
theorem writeSample_outside {α : Type} (tr : av_ranger_transducer_data_t α) (r : Nat)
    (f : av_sample_t α → av_sample_t α) (h : tr.samples.length ≤ r) :
    writeSample tr r f = none := by
  simp [writeSample, List.getElem?_eq_none h]

/-- Inside all three arrays the loop body replaces sample `r` by bearing and
azimuth `1`, range `ranges[r]` and intensity `intensities[r]`. -/
theorem sampleBody_inside {α : Type} [One α] (ranges intensities : List α) (r : Nat)
    (tr : av_ranger_transducer_data_t α) (h : r < tr.samples.length)
    (hr : r < ranges.length) (hi : r < intensities.length) :
    sampleBody ranges intensities r tr =
      some { tr with samples :=
        tr.samples.set r (av_sample_t.mk 1 1 ranges[r] intensities[r]) } := by
  simp [sampleBody, writeSample, List.getElem?_eq_getElem, h, hr, hi, bind, Option.bind]

/-- Outside the sample array the loop body is a fault. -/
theorem sampleBody_outside {α : Type} [One α] (ranges intensities : List α) (r : Nat)
    (tr : av_ranger_transducer_data_t α) (h : tr.samples.length ≤ r) :
    sampleBody ranges intensities r tr = none := by
  simp [sampleBody, writeSample_outside tr r _ h, bind, Option.bind]

/-- The sample loop inside the arrays: it ends without a fault, leaves pose,
sample count and array length alone, fills the samples `r .. r + k - 1` and
leaves every other sample as it was. -/
theorem sampleLoop_inside {α : Type} [One α] (ranges intensities : List α) :
    ∀ (k r : Nat) (tr : av_ranger_transducer_data_t α),
      r + k ≤ tr.samples.length → r + k ≤ ranges.length → r + k ≤ intensities.length →
      ∃ tr1, sampleLoop ranges intensities k r tr = (tr1, none) ∧
        tr1.pose = tr.pose ∧ tr1.sample_count = tr.sample_count ∧
        tr1.samples.length = tr.samples.length ∧
        (∀ j, r ≤ j → j < r + k → ∃ smp, tr1.samples[j]? = some smp ∧
          some smp.range = ranges[j]? ∧ some smp.intensity = intensities[j]? ∧
          smp.bearing = 1 ∧ smp.azimuth = 1) ∧
        (∀ j, j < r ∨ r + k ≤ j → tr1.samples[j]? = tr.samples[j]?) := by
  intro k
  induction k with
  | zero =>
    intro r tr _ _ _
    refine ⟨tr, rfl, rfl, rfl, rfl, ?_, fun _ _ => rfl⟩
    intro j h1 h2; omega
  | succ k ih =>
    intro r tr h hr hi
    have hb := sampleBody_inside ranges intensities r tr (by omega) (by omega) (by omega)
    obtain ⟨tr1, e, hp, hc, hl, hin, hout⟩ := ih (r + 1)
      { tr with samples := tr.samples.set r (av_sample_t.mk 1 1 ranges[r] intensities[r]) }
      (by simpa using (by omega : r + 1 + k ≤ tr.samples.length)) (by omega) (by omega)
    refine ⟨tr1, ?_, hp, hc, ?_, ?_, ?_⟩
    · simp only [sampleLoop, hb]; exact e
    · simpa using hl
    · intro j h1 h2
      by_cases hj : j = r
      · subst hj
        refine ⟨av_sample_t.mk 1 1 ranges[j] intensities[j], ?_, ?_, ?_, rfl, rfl⟩
        · rw [hout j (by omega)]
          simp [List.getElem?_set]
          omega
        · simp [List.getElem?_eq_getElem (by omega : j < ranges.length)]
        · simp [List.getElem?_eq_getElem (by omega : j < intensities.length)]
      · exact hin j (by omega) (by omega)
    · intro j hj
      rw [hout j (by omega)]
      simp [List.getElem?_set]
      omega

/-- The sample loop running past the end of the sample array stops on an
out-of-bounds access. -/
theorem sampleLoop_overflow {α : Type} [One α] (ranges intensities : List α) :
    ∀ (k r : Nat) (tr : av_ranger_transducer_data_t α),
      r ≤ tr.samples.length → tr.samples.length < r + k →
      r + k ≤ ranges.length → r + k ≤ intensities.length →
      (sampleLoop ranges intensities k r tr).2 = some Fault.outOfBounds := by
  intro k
  induction k with
  | zero => intro r tr h1 h2; omega
  | succ k ih =>
    intro r tr h1 h2 hr hi
    by_cases h : r < tr.samples.length
    · have hb := sampleBody_inside ranges intensities r tr h (by omega) (by omega)
      simp only [sampleLoop, hb]
      exact ih (r + 1)
        { tr with samples := tr.samples.set r (av_sample_t.mk 1 1 ranges[r] intensities[r]) }
        (by simpa using h) (by simp; omega) (by omega) (by omega)
    · have hb := sampleBody_outside ranges intensities r tr (by omega)
      simp only [sampleLoop, hb]

/-- The pose slots after `writePose`. -/
theorem writePose_pose {α : Type} [Zero α] (sp : Pose α) (tr : av_ranger_transducer_data_t α) :
    (writePose sp tr).pose 0 = sp.x ∧ (writePose sp tr).pose 1 = sp.y ∧
    (writePose sp tr).pose 2 = sp.z ∧ (writePose sp tr).pose 3 = 0 ∧
    (writePose sp tr).pose 4 = 0 ∧ (writePose sp tr).pose 5 = sp.a ∧
    (writePose sp tr).samples = tr.samples ∧
    (writePose sp tr).sample_count = tr.sample_count := by
  simp [writePose, Function.update]

/-- The transducer loop on sensors that pass both assertions and fit the sample
array: it ends without a fault, leaves the transducer count alone, fills the
records `s .. s + k - 1` from the sensors and leaves every other record as it
was. -/
theorem transducerLoop_inside {α : Type} [Zero α] [One α] (cap : Nat)
    (sensors : List (Sensor α))
    (hs : ∀ sensor ∈ sensors,
      sensor.ranges.length = sensor.intensities.length ∧ sensor.ranges.length ≤ cap) :
    ∀ (k s : Nat) (rd : av_ranger_data_t α),
      s + k ≤ sensors.length → s + k ≤ rd.transducers.length →
      (∀ j tr, s ≤ j → rd.transducers[j]? = some tr → tr.samples.length = cap) →
      ∃ rd1, transducerLoop sensors k s rd = (rd1, none) ∧
        rd1.transducer_count = rd.transducer_count ∧
        rd1.transducers.length = rd.transducers.length ∧
        (∀ j sensor, s ≤ j → j < s + k → sensors[j]? = some sensor →
          ∃ tr, rd1.transducers[j]? = some tr ∧ HoldsSensor sensor tr) ∧
        (∀ j, j < s ∨ s + k ≤ j → rd1.transducers[j]? = rd.transducers[j]?) := by
  intro k
  induction k with
  | zero =>
    intro s rd _ _ _
    refine ⟨rd, rfl, rfl, rfl, ?_, fun _ _ => rfl⟩
    intro j _ h1 h2; omega
  | succ k ih =>
    intro s rd h1 h2 hcap
    obtain ⟨sensor, es⟩ : ∃ sensor, sensors[s]? = some sensor :=
      ⟨_, List.getElem?_eq_getElem (by omega)⟩
    obtain ⟨tr, et⟩ : ∃ tr, rd.transducers[s]? = some tr :=
      ⟨_, List.getElem?_eq_getElem (by omega)⟩
    obtain ⟨heq, hle⟩ := hs sensor (List.getElem?_mem es)
    have hlen := hcap s tr (le_refl s) et
    obtain ⟨p0, p1, p2, p3, p4, p5, psam, pcnt⟩ := writePose_pose sensor.pose tr
    obtain ⟨tr1, e, hp, hc, hl, hin, _⟩ := sampleLoop_inside sensor.ranges
      sensor.intensities sensor.ranges.length 0
      { writePose sensor.pose tr with sample_count := sensor.ranges.length }
      (by simp only [psam]; omega) (by omega) (by omega)
    obtain ⟨rd1, e1, hc1, hl1, hin1, hout1⟩ := ih (s + 1)
      { rd with transducers := rd.transducers.set s tr1 } (by omega)
      (by simp; omega)
      (by
        intro j tr2 hj hget
        simp only [List.getElem?_set] at hget
        rw [if_neg (by omega)] at hget
        exact hcap j tr2 (by omega) hget)
    refine ⟨rd1, ?_, by simpa using hc1, by simpa using hl1, ?_, ?_⟩
    · simp only [transducerLoop, es, et, if_pos heq]
      rw [e]
      exact e1
    · intro j sensor2 hj1 hj2 hget
      by_cases hj : j = s
      · subst hj
        rw [es] at hget
        cases hget
        refine ⟨tr1, ?_, ?_⟩
        · rw [hout1 j (by omega)]
          simp [List.getElem?_set]
          omega
        · refine ⟨⟨?_, ?_, ?_, ?_, ?_, ?_⟩, hc, ?_⟩
          · rw [hp]; exact p0
          · rw [hp]; exact p1
          · rw [hp]; exact p2
          · rw [hp]; exact p3
          · rw [hp]; exact p4
          · rw [hp]; exact p5
          · intro r hr
            rw [hc] at hr
            exact hin r (by omega) (by simpa using hr)
      · exact hin1 j sensor2 (by omega) (by omega) hget
    · intro j hj
      rw [hout1 j (by omega)]
      simp [List.getElem?_set]
      omega

/-- Bundle of the facts about `RangerData` on a ranger that passes both
assertions and fits the sample arrays. -/
theorem RangerData_inside {M α : Type} [Zero α] [One α] (lim : AvLimits)
    (ops : ModelOps M α) (m : M) (sensors : List (Sensor α))
    (hr : ops.GetSensors m = some sensors)
    (hn : sensors.length ≤ lim.AV_RANGER_TRANSDUCERS_MAX)
    (hs : ∀ sensor ∈ sensors, sensor.ranges.length = sensor.intensities.length ∧
      sensor.ranges.length ≤ lim.AV_RANGER_SAMPLES_MAX) :
    (RangerData lim ops m).result = Except.ok 0 ∧
    (RangerData lim ops m).data =
      { time := GetTime ops m, type := av_type_t.AV_MODEL_RANGER, data := DataPtr.rd } ∧
    (RangerData lim ops m).rd.transducer_count = sensors.length ∧
    ∀ (s : Nat) (sensor : Sensor α), sensors[s]? = some sensor →
      ∃ tr, (RangerData lim ops m).rd.transducers[s]? = some tr ∧ HoldsSensor sensor tr := by
  obtain ⟨rd1, e, hc, _, hin, _⟩ := transducerLoop_inside lim.AV_RANGER_SAMPLES_MAX sensors hs
    sensors.length 0
    { av_ranger_data_t.zero α lim with transducer_count := sensors.length }
    (by omega) (by simpa [av_ranger_data_t.zero] using hn)
    (by
      intro j tr _ hget
      simp only [av_ranger_data_t.zero, List.getElem?_replicate] at hget
      split at hget
      · cases hget; simp [av_ranger_transducer_data_t.zero]
      · cases hget)
  have hrun : RangerData lim ops m =
      { rd := rd1
        data := { time := GetTime ops m, type := av_type_t.AV_MODEL_RANGER, data := DataPtr.rd }
        result := Except.ok 0 } := by
    simp only [RangerData, hr, if_pos hn]
    rw [e]
  rw [hrun]
  refine ⟨rfl, rfl, by simpa using hc, ?_⟩
  intro s sensor hget
  have hlt : s < sensors.length := by
    by_contra hge
    rw [List.getElem?_eq_none (by omega)] at hget
    cases hget
  exact hin s sensor (by omega) (by omega) hget

/-- The sample loop never stops on an assertion. -/
theorem sampleLoop_fault {α : Type} [One α] (ranges intensities : List α) :
    ∀ (k r : Nat) (tr : av_ranger_transducer_data_t α),
      (sampleLoop ranges intensities k r tr).2 = none ∨
      (sampleLoop ranges intensities k r tr).2 = some Fault.outOfBounds := by
  intro k
  induction k with
  | zero => intro r tr; left; rfl
  | succ k ih =>
    intro r tr
    cases hb : sampleBody ranges intensities r tr with
    | none => right; simp only [sampleLoop, hb]
    | some tr1 => simp only [sampleLoop, hb]; exact ih (r + 1) tr1

/-- On sensors with ranges and intensities of equal length the transducer loop
never stops on an assertion. -/
theorem transducerLoop_fault {α : Type} [Zero α] [One α] (sensors : List (Sensor α))
    (hs : ∀ sensor ∈ sensors, sensor.ranges.length = sensor.intensities.length) :
    ∀ (k s : Nat) (rd : av_ranger_data_t α),
      (transducerLoop sensors k s rd).2 = none ∨
      (transducerLoop sensors k s rd).2 = some Fault.outOfBounds := by
  intro k
  induction k with
  | zero => intro s rd; left; rfl
  | succ k ih =>
    intro s rd
    cases es : sensors[s]? with
    | none => right; simp only [transducerLoop, es]
    | some sensor =>
      cases et : rd.transducers[s]? with
      | none => right; simp only [transducerLoop, es, et]
      | some tr =>
        have heq := hs sensor (List.getElem?_mem es)
        simp only [transducerLoop, es, et, if_pos heq]
        rcases hsl : sampleLoop sensor.ranges sensor.intensities sensor.ranges.length 0
          { writePose sensor.pose tr with sample_count := sensor.ranges.length } with ⟨tr1, f⟩
        have hf := sampleLoop_fault sensor.ranges sensor.intensities sensor.ranges.length 0
          { writePose sensor.pose tr with sample_count := sensor.ranges.length }
        rw [hsl] at hf
        cases f with
        | none => exact ih (s + 1) _
        | some f =>
          rcases hf with hf | hf
          · cases hf
          · right; simpa using hf

/-- A sensor with one sample more than the sample array holds makes
`RangerData` run past the end of `samples[]`, whatever the two bounds are. -/
theorem RangerData_overflow (lim : AvLimits) (h : 0 < lim.AV_RANGER_TRANSDUCERS_MAX) :
    (RangerData lim (storedOps Int) (overflowModel lim)).result =
      Except.error Fault.outOfBounds := by
  have hf := sampleLoop_overflow
    (List.replicate (lim.AV_RANGER_SAMPLES_MAX + 1) (5 : Int))
    (List.replicate (lim.AV_RANGER_SAMPLES_MAX + 1) (9 : Int))
    (lim.AV_RANGER_SAMPLES_MAX + 1) 0
    { writePose (Pose.mk (0 : Int) 0 0 0) (av_ranger_transducer_data_t.zero Int lim) with
      sample_count := lim.AV_RANGER_SAMPLES_MAX + 1 }
    (by simp) (by simp [writePose, av_ranger_transducer_data_t.zero]) (by simp) (by simp)
  rcases hsl : sampleLoop
    (List.replicate (lim.AV_RANGER_SAMPLES_MAX + 1) (5 : Int))
    (List.replicate (lim.AV_RANGER_SAMPLES_MAX + 1) (9 : Int))
    (lim.AV_RANGER_SAMPLES_MAX + 1) 0
    { writePose (Pose.mk (0 : Int) 0 0 0) (av_ranger_transducer_data_t.zero Int lim) with
      sample_count := lim.AV_RANGER_SAMPLES_MAX + 1 } with ⟨tr1, f⟩
  rw [hsl] at hf
  simp only at hf
  subst hf
  have h1 : (1 : Nat) ≤ lim.AV_RANGER_TRANSDUCERS_MAX := h
  simp only [RangerData, storedOps, overflowModel, List.length_singleton, if_pos h1,
    transducerLoop, List.getElem?_cons_zero, av_ranger_data_t.zero, List.getElem?_replicate,
    if_pos h, List.length_replicate, if_true]
  rw [hsl]

/-- C4 as stated fails: whatever the two array bounds of the packet are (with
room for at least one transducer), it is not true that `RangerData` returns 0
for every ranger with at most `AV_RANGER_TRANSDUCERS_MAX` sensors whose range
and intensity sequences have equal length.  A sensor with one sample more than
a transducer record holds makes the sample loop write past `samples[]`. -/
theorem C4_counterexample_sample_overflow :
    ¬ ∃ lim : AvLimits, 0 < lim.AV_RANGER_TRANSDUCERS_MAX ∧
      ∀ (m : StoredModel Int) (sensors : List (Sensor Int)),
        (storedOps Int).GetSensors m = some sensors →
        sensors.length ≤ lim.AV_RANGER_TRANSDUCERS_MAX →
        (∀ sensor ∈ sensors, sensor.ranges.length = sensor.intensities.length) →
        (RangerData lim (storedOps Int) m).result = Except.ok 0 := by
  rintro ⟨lim, hpos, hall⟩
  have h := hall (overflowModel lim) _ rfl (by simpa using hpos)
    (by intro sensor hmem; simp at hmem; subst hmem; simp)
  rw [RangerData_overflow lim hpos] at h
  cases h

/-- C4 (amended): for every ranger model with at most
`AV_RANGER_TRANSDUCERS_MAX` sensors, each having ranges and intensities of equal
length and at most as many samples as a transducer record holds, `RangerData`
returns 0 and produces a packet stamped with the simulated time and type
`AV_MODEL_RANGER` in which `transducer_count` is the number of sensors and, for
every sensor `s`, record `s` has pose `(x, y, z, 0, 0, a)`, `sample_count` equal
to the number of ranges and, below `sample_count`, range and intensity equal to
`ranges[r]` and `intensities[r]` and bearing and azimuth equal to `1`. -/
theorem C4_ranger_data_packet {M α : Type} [Zero α] [One α] (lim : AvLimits)
    (ops : ModelOps M α) (m : M) (sensors : List (Sensor α))
    (hr : ops.GetSensors m = some sensors)
    (hn : sensors.length ≤ lim.AV_RANGER_TRANSDUCERS_MAX)
    (hs : ∀ sensor ∈ sensors, sensor.ranges.length = sensor.intensities.length ∧
      sensor.ranges.length ≤ lim.AV_RANGER_SAMPLES_MAX) :
    (RangerData lim ops m).result = Except.ok 0 ∧
    (RangerData lim ops m).data.time = ops.SimTimeNow m % 2 ^ 64 ∧
    (RangerData lim ops m).data.type = av_type_t.AV_MODEL_RANGER ∧
    (RangerData lim ops m).data.data = DataPtr.rd ∧
    (RangerData lim ops m).rd.transducer_count = sensors.length ∧
    ∀ (s : Nat) (sensor : Sensor α), sensors[s]? = some sensor →
      ∃ tr, (RangerData lim ops m).rd.transducers[s]? = some tr ∧
        (tr.pose 0 = sensor.pose.x ∧ tr.pose 1 = sensor.pose.y ∧ tr.pose 2 = sensor.pose.z ∧
          tr.pose 3 = 0 ∧ tr.pose 4 = 0 ∧ tr.pose 5 = sensor.pose.a) ∧
        tr.sample_count = sensor.ranges.length ∧
        ∀ r, r < tr.sample_count → ∃ smp, tr.samples[r]? = some smp ∧
          some smp.range = sensor.ranges[r]? ∧
          some smp.intensity = sensor.intensities[r]? ∧
          smp.bearing = 1 ∧ smp.azimuth = 1 := by
  obtain ⟨h1, h2, h3, h4⟩ := RangerData_inside lim ops m sensors hr hn hs
  refine ⟨h1, ?_, ?_, ?_, h3, ?_⟩
  · rw [h2]; rfl
  · rw [h2]
  · rw [h2]
  · intro s sensor hget
    obtain ⟨tr, e, hh⟩ := h4 s sensor hget
    exact ⟨tr, e, hh⟩

/-- C4 (amended) at the two-sensor ranger `rangerSample`, with room for two
transducers of three samples. -/
theorem C4_ranger_data_packet_witness :
    (RangerData limSample (storedOps Int) rangerSample).result = Except.ok 0 ∧
    (RangerData limSample (storedOps Int) rangerSample).data.time = 42 ∧
    (RangerData limSample (storedOps Int) rangerSample).rd.transducer_count = 2 :=
  have h := C4_ranger_data_packet limSample (storedOps Int) rangerSample
    [{ pose := Pose.mk 1 2 3 4, ranges := [10, 11], intensities := [20, 21] },
     { pose := Pose.mk 5 6 7 8, ranges := [12, 13, 14], intensities := [22, 23, 24] }]
    rfl (by decide) (by decide)
  ⟨h.1, h.2.1, h.2.2.2.2.1⟩

/-- C5: for every ranger model, (1) with more than `AV_RANGER_TRANSDUCERS_MAX`
sensors `RangerData` stops on its capacity assertion, returns no result, and at
that point no transducer slot has been written: the buffer is the cleared one
with only `transducer_count` set; (2) with at most
`AV_RANGER_TRANSDUCERS_MAX` sensors whose range and intensity sequences have
equal length it stops on no assertion. -/
theorem C5_ranger_assertions {M α : Type} [Zero α] [One α] (lim : AvLimits)
    (ops : ModelOps M α) (m : M) (sensors : List (Sensor α))
    (hr : ops.GetSensors m = some sensors) :
    (lim.AV_RANGER_TRANSDUCERS_MAX < sensors.length →
      (RangerData lim ops m).result =
        Except.error (Fault.assertion "rd.transducer_count <= AV_RANGER_TRANSDUCERS_MAX") ∧
      (RangerData lim ops m).rd.transducer_count = sensors.length ∧
      (RangerData lim ops m).rd.transducers = (av_ranger_data_t.zero α lim).transducers) ∧
    (sensors.length ≤ lim.AV_RANGER_TRANSDUCERS_MAX →
      (∀ sensor ∈ sensors, sensor.ranges.length = sensor.intensities.length) →
      ∀ cond, (RangerData lim ops m).result ≠ Except.error (Fault.assertion cond)) := by
  constructor
  · intro h
    have hn : ¬ sensors.length ≤ lim.AV_RANGER_TRANSDUCERS_MAX := by omega
    refine ⟨?_, ?_, ?_⟩ <;> simp [RangerData, hr, hn]
  · intro hn hs cond
    simp only [RangerData, hr, if_pos hn]
    rcases hl : transducerLoop sensors sensors.length 0
      { av_ranger_data_t.zero α lim with transducer_count := sensors.length } with ⟨rd1, f⟩
    have hf := transducerLoop_fault sensors hs sensors.length 0
      { av_ranger_data_t.zero α lim with transducer_count := sensors.length }
    rw [hl] at hf
    rcases hf with hf | hf
    · simp only at hf; subst hf; simp
    · simp only at hf; subst hf; simp

/-- C5 at concrete rangers with room for two transducers of three samples: a
ranger with three sensors stops on the capacity assertion with every transducer
slot still clear, the two-sensor ranger `rangerSample` stops on no assertion. -/
theorem C5_ranger_assertions_witness :
    (RangerData limSample (storedOps Int) crowdedSample).result =
      Except.error (Fault.assertion "rd.transducer_count <= AV_RANGER_TRANSDUCERS_MAX") ∧
    (∀ cond, (RangerData limSample (storedOps Int) rangerSample).result ≠
      Except.error (Fault.assertion cond)) :=
  ⟨((C5_ranger_assertions limSample (storedOps Int) crowdedSample
      [{ pose := Pose.mk 1 2 3 4, ranges := [10], intensities := [20] },
       { pose := Pose.mk 1 2 3 4, ranges := [10], intensities := [20] },
       { pose := Pose.mk 1 2 3 4, ranges := [10], intensities := [20] }] rfl).1
      (by decide)).1,
   (C5_ranger_assertions limSample (storedOps Int) rangerSample
      [{ pose := Pose.mk 1 2 3 4, ranges := [10, 11], intensities := [20, 21] },
       { pose := Pose.mk 5 6 7 8, ranges := [12, 13, 14], intensities := [22, 23, 24] }]
      rfl).2 (by decide) (by decide)⟩

/-! ## Command line -/

/-- The decimal digit characters: digit, neither white space nor a sign, with
the digit as value. -/
theorem digitChar_facts (k : Nat) (hk : k < 10) :
    (Nat.digitChar k).isDigit = true ∧ (Nat.digitChar k).toNat - 48 = k ∧
    isspace (Nat.digitChar k) = false ∧ Nat.digitChar k ≠ '-' ∧ Nat.digitChar k ≠ '+' := by
  interval_cases k <;> decide

/-- Reading back the digits that `Nat.toDigitsCore` puts in front of `acc`. -/
theorem digitsValue_toDigitsCore :
    ∀ (f n : Nat) (acc : List Char), n < f →
      digitsValue 0 (Nat.toDigitsCore 10 f n acc) = digitsValue n acc := by
  intro f
  induction f with
  | zero => intro n acc h; omega
  | succ f ih =>
    intro n acc h
    obtain ⟨h1, h2, _⟩ := digitChar_facts (n % 10) (Nat.mod_lt _ (by decide))
    simp only [Nat.toDigitsCore]
    by_cases h0 : n / 10 = 0
    · simp only [h0, if_true, digitsValue, h1, h2]
      have : n % 10 = n := Nat.mod_eq_of_lt (by omega)
      simp [this]
    · simp only [h0, if_false]
      rw [ih (n / 10) _ (by omega)]
      simp only [digitsValue, h1, if_true, h2]
      congr 1
      omega

/-- The text `Nat.toDigitsCore` produces starts with a decimal digit. -/
theorem toDigitsCore_head :
    ∀ (f n : Nat) (acc : List Char),
      (0 < f ∨ ∃ k cs, k < 10 ∧ acc = Nat.digitChar k :: cs) →
      ∃ k cs, k < 10 ∧ Nat.toDigitsCore 10 f n acc = Nat.digitChar k :: cs := by
  intro f
  induction f with
  | zero =>
    intro n acc h
    rcases h with h | h
    · omega
    · simpa [Nat.toDigitsCore] using h
  | succ f ih =>
    intro n acc _
    simp only [Nat.toDigitsCore]
    by_cases h0 : n / 10 = 0
    · simp only [h0, if_true]
      exact ⟨n % 10, acc, Nat.mod_lt _ (by decide), rfl⟩
    · simp only [h0, if_false]
      exact ih _ _ (Or.inr ⟨n % 10, acc, Nat.mod_lt _ (by decide), rfl⟩)

/-- `atoi` reads the decimal numeral of a number below `2 ^ 31` back. -/
theorem atoi_toString (n : Nat) (h : n < 2 ^ 31) : atoi (toString n) = n := by
  obtain ⟨k, cs, hk, e⟩ := toDigitsCore_head (n + 1) n [] (Or.inl (by omega))
  obtain ⟨_, _, h3, h4, h5⟩ := digitChar_facts k hk
  have hv := digitsValue_toDigitsCore (n + 1) n [] (by omega)
  have hl : (toString n).toList = Nat.toDigitsCore 10 (n + 1) n [] := rfl
  have hs : strtol10 (toString n).toList = n := by
    rw [hl]
    unfold strtol10
    rw [e] at hv ⊢
    rw [List.dropWhile_cons_of_neg (by simp [h3])]
    split
    · rename_i heq; simp at heq; exact absurd heq.1 h4
    · rename_i heq; simp at heq; exact absurd heq.1 h5
    · rw [hv]; simp [digitsValue]; omega
  unfold atoi
  rw [hs]
  omega

/-- `--port value`: `getopt_long` returns `p` with the next argument as
`optarg`. -/
theorem scanArgs_port (i : Nat) (value : String) (rest : List String) :
    scanArgs i ("--port" :: value :: rest) =
      { opts := { ch := 'p', optarg := some value, optindex := 5 } :: (scanArgs 5 rest).opts
        operands := (scanArgs 5 rest).operands } := by
  rfl

/-- `--host value`: `getopt_long` returns `h` with the next argument as
`optarg`. -/
theorem scanArgs_host (i : Nat) (value : String) (rest : List String) :
    scanArgs i ("--host" :: value :: rest) =
      { opts := { ch := 'h', optarg := some value, optindex := 6 } :: (scanArgs 6 rest).opts
        operands := (scanArgs 6 rest).operands } := by
  rfl

/-- An argument that does not start with `-` is a non-option argument. -/
theorem scanArgs_operand (i : Nat) (w : String) (rest : List String)
    (hw : w.toList.head? ≠ some '-') :
    scanArgs i (w :: rest) =
      { opts := (scanArgs i rest).opts, operands := w :: (scanArgs i rest).operands } := by
  rw [scanArgs]
  split
  · rename_i heq; rw [heq] at hw; simp at hw
  · rename_i heq; rw [heq] at hw; simp at hw
  · rename_i heq; rw [heq] at hw; simp at hw
  · rfl

/-- The returns of `getopt_long` on `--port n --host h w`. -/
theorem scanArgs_port_host_world (port host w : String) (hw : w.toList.head? ≠ some '-') :
    scanArgs 0 ["--port", port, "--host", host, w] =
      { opts := [{ ch := 'p', optarg := some port, optindex := 5 },
                 { ch := 'h', optarg := some host, optindex := 6 }]
        operands := [w] } := by
  rw [scanArgs_port, scanArgs_host, scanArgs_operand _ _ _ hw]
  rfl

/-- The settings after the option loop on `--port n --host h w`. -/
theorem optionLoop_port_host (env : BuildEnv) (port host : String) :
    optionLoop [{ ch := 'p', optarg := some port, optindex := 5 },
                { ch := 'h', optarg := some host, optindex := 6 }] (initialSettings env) =
      Except.ok { initialSettings env with
        port := toUnsignedShort (atoi port), host := host } := by
  rfl

/-- C6: for every host string `h`, every port number `n` in `0..65535` and
every world file name `w` not starting with `-`, the arguments
`prog --port n --host h w` yield host `h`, port `n` and world file `w` with all
other settings at their defaults (`usegui` true, `showclock` false, `rootdir`
`"."`, `verbose` false, no controller arguments), and `main` goes on to
`av_init` with them. -/
theorem C6_port_host_world (env : BuildEnv) (world : ModelList) (paused : Bool)
    (prog h w : String) (n : Nat) (hn : n < 65536) (hw : w.toList.head? ≠ some '-') :
    (main env world paused [prog, "--port", toString n, "--host", h, w]).settings.host = h ∧
    (main env world paused [prog, "--port", toString n, "--host", h, w]).settings.port = n ∧
    (main env world paused [prog, "--port", toString n, "--host", h, w]).worldfilename =
      some w ∧
    (main env world paused [prog, "--port", toString n, "--host", h, w]).settings.usegui =
      true ∧
    (main env world paused [prog, "--port", toString n, "--host", h, w]).settings.showclock =
      false ∧
    (main env world paused [prog, "--port", toString n, "--host", h, w]).settings.rootdir =
      "." ∧
    (main env world paused [prog, "--port", toString n, "--host", h, w]).settings.verbose =
      false ∧
    (main env world paused [prog, "--port", toString n, "--host", h, w]).settings.ctrlargs =
      "" ∧
    (main env world paused [prog, "--port", toString n, "--host", h, w]).calls.head? =
      some (Call.av_init h n "." false env.PROJECT env.VERSION) := by
  have hp : toUnsignedShort (atoi (toString n)) = n := by
    rw [atoi_toString n (by omega)]
    unfold toUnsignedShort
    omega
  simp only [main, List.drop_one, List.tail_cons, scanArgs_port_host_world _ _ _ hw,
    optionLoop_port_host, hp, List.head?_cons]
  simp [initialSettings]

/-- C6 at the argument list of the spec:
`prog --port 9001 --host foo.example world.cfg`. -/
theorem C6_port_host_world_witness :
    (main envSample worldSample false
      ["prog", "--port", "9001", "--host", "foo.example", "world.cfg"]).settings.host =
      "foo.example" ∧
    (main envSample worldSample false
      ["prog", "--port", "9001", "--host", "foo.example", "world.cfg"]).settings.port =
      9001 ∧
    (main envSample worldSample false
      ["prog", "--port", "9001", "--host", "foo.example", "world.cfg"]).worldfilename =
      some "world.cfg" ∧
    (main envSample worldSample false
      ["prog", "--port", "9001", "--host", "foo.example", "world.cfg"]).settings.usegui =
      true ∧
    (main envSample worldSample false
      ["prog", "--port", "9001", "--host", "foo.example", "world.cfg"]).settings.showclock =
      false :=
  have h := C6_port_host_world envSample worldSample false "prog" "foo.example" "world.cfg"
    9001 (by decide) (by decide)
  ⟨h.1, h.2.1, h.2.2.1, h.2.2.2.1, h.2.2.2.2.1⟩

/-- The flags `-c`, `-g`, `-v`, `--clock`, `--gui`, `--verbose` each give one
return of `getopt_long` without argument. -/
theorem scanArgs_flag (arg : String)
    (h : arg ∈ ["-c", "-g", "-v", "--clock", "--gui", "--verbose"])
    (i : Nat) (rest : List String) :
    ∃ o j, o.ch ∈ ['c', 'g', 'v'] ∧
      scanArgs i (arg :: rest) =
        { opts := o :: (scanArgs j rest).opts, operands := (scanArgs j rest).operands } := by
  simp only [List.mem_cons, List.mem_singleton, List.not_mem_nil, or_false] at h
  rcases h with h | h | h | h | h | h <;> subst h
  · exact ⟨{ ch := 'c', optarg := none, optindex := i }, i, by simp, rfl⟩
  · exact ⟨{ ch := 'g', optarg := none, optindex := i }, i, by simp, rfl⟩
  · exact ⟨{ ch := 'v', optarg := none, optindex := i }, i, by simp, rfl⟩
  · refine ⟨{ ch := 'c', optarg := none, optindex := 1 }, 1, by simp, ?_⟩
    rw [scanArgs]; simp [lookupLong, splitEq, findExact, longopts]
  · refine ⟨{ ch := 'g', optarg := none, optindex := 0 }, 0, by simp, ?_⟩
    rw [scanArgs]; simp [lookupLong, splitEq, findExact, longopts]
  · refine ⟨{ ch := 'v', optarg := none, optindex := 4 }, 4, by simp, ?_⟩
    rw [scanArgs]; simp [lookupLong, splitEq, findExact, longopts]

/-- The options `--port`, `--host`, `--rootdir`, `--args` each give one return
of `getopt_long` with the next argument as `optarg`. -/
theorem scanArgs_valued (name : String)
    (h : name ∈ ["--port", "--host", "--rootdir", "--args"])
    (i : Nat) (value : String) (rest : List String) :
    ∃ o j, o.ch ∈ ['p', 'h', 'r', 'a'] ∧ o.optarg = some value ∧
      scanArgs i (name :: value :: rest) =
        { opts := o :: (scanArgs j rest).opts, operands := (scanArgs j rest).operands } := by
  simp only [List.mem_cons, List.mem_singleton, List.not_mem_nil, or_false] at h
  rcases h with h | h | h | h <;> subst h
  · exact ⟨{ ch := 'p', optarg := some value, optindex := 5 }, 5, by simp, rfl, rfl⟩
  · exact ⟨{ ch := 'h', optarg := some value, optindex := 6 }, 6, by simp, rfl, rfl⟩
  · exact ⟨{ ch := 'r', optarg := some value, optindex := 7 }, 7, by simp, rfl, rfl⟩
  · exact ⟨{ ch := 'a', optarg := some value, optindex := 3 }, 3, by simp, rfl, rfl⟩

/-- The switch goes on after a flag. -/
theorem optionSwitch_flag (o : Opt) (st : Settings) (h : o.ch ∈ ['c', 'g', 'v']) :
    ∃ st1, optionSwitch o st = Except.ok st1 := by
  obtain ⟨ch, optarg, optindex⟩ := o
  simp only [List.mem_cons, List.mem_singleton, List.not_mem_nil, or_false] at h
  rcases h with h | h | h <;> subst h <;> exact ⟨_, rfl⟩

/-- The switch goes on after an option that came with its argument. -/
theorem optionSwitch_valued (o : Opt) (st : Settings) (value : String)
    (h : o.ch ∈ ['p', 'h', 'r', 'a']) (hv : o.optarg = some value) :
    ∃ st1, optionSwitch o st = Except.ok st1 := by
  obtain ⟨ch, optarg, optindex⟩ := o
  simp only at hv
  subst hv
  simp only [List.mem_cons, List.mem_singleton, List.not_mem_nil, or_false] at h
  rcases h with h | h | h | h <;> subst h <;> exact ⟨_, rfl⟩

/-- On plain options the option loop runs to its end and no non-option
argument is left. -/
theorem optionLoop_plain (args : List String) (h : PlainOptions args) :
    ∀ (i : Nat) (st : Settings),
      (∃ st1, optionLoop (scanArgs i args).opts st = Except.ok st1) ∧
      (scanArgs i args).operands = [] := by
  induction h with
  | nil => intro i st; exact ⟨⟨st, rfl⟩, rfl⟩
  | flag arg rest hmem _ ih =>
    intro i st
    obtain ⟨o, j, hch, e⟩ := scanArgs_flag arg hmem i rest
    obtain ⟨st1, e1⟩ := optionSwitch_flag o st hch
    obtain ⟨⟨st2, e2⟩, e3⟩ := ih j st1
    rw [e]
    exact ⟨⟨st2, by simp only [optionLoop, e1]; exact e2⟩, e3⟩
  | valued name value rest hmem _ ih =>
    intro i st
    obtain ⟨o, j, hch, hv, e⟩ := scanArgs_valued name hmem i value rest
    obtain ⟨st1, e1⟩ := optionSwitch_valued o st value hch hv
    obtain ⟨⟨st2, e2⟩, e3⟩ := ih j st1
    rw [e]
    exact ⟨⟨st2, by simp only [optionLoop, e1]; exact e2⟩, e3⟩

/-- When the option loop runs to its end and no non-option argument is left,
`main` stops at the world-file check with `exit(-1)`, having made no call. -/
theorem main_no_worldfile (env : BuildEnv) (world : ModelList) (paused : Bool)
    (argv : List String) (st : Settings)
    (h1 : optionLoop (scanArgs 0 (argv.drop 1)).opts (initialSettings env) = Except.ok st)
    (h2 : (scanArgs 0 (argv.drop 1)).operands = []) :
    main env world paused argv =
      { settings := { st with stdout := st.stdout ++
          ["[AvonStage] no worldfile specified on command line. Quit.\n\n"] }
        worldfilename := none, calls := [], ending := Ending.exit (-1) } := by
  simp only [main, h1, h2, List.head?_nil]

/-- C7 as stated fails: `prog -z` has no non-option argument and asks for no
help, yet `main` ends in the option loop with `exit(0)`; `prog -p` has none
either and stops on the `NULL` `optarg` passed to `atoi`.  Neither reaches the
world-file check. -/
theorem C7_counterexample_exit_zero :
    (scanArgs 0 ["-z"]).operands = [] ∧
    (main envSample worldSample false ["prog", "-z"]).ending = Ending.exit 0 ∧
    (scanArgs 0 ["-p"]).operands = [] ∧
    (main envSample worldSample false ["prog", "-p"]).ending = Ending.crash := by
  decide

/-- Every argument list made only of the options `-c`, `-g`, `-v`, `--clock`,
`--gui`, `--verbose`, and `--port`, `--host`, `--rootdir`, `--args` each with its
argument, is one on which `main` stops at the world-file check. -/
theorem main_plain_options_exit (env : BuildEnv) (world : ModelList) (paused : Bool)
    (prog : String) (args : List String) (h : PlainOptions args) :
    (main env world paused (prog :: args)).ending = Ending.exit (-1) ∧
    (main env world paused (prog :: args)).calls = [] ∧
    (main env world paused (prog :: args)).worldfilename = none ∧
    (main env world paused (prog :: args)).settings.stdout.getLast? =
      some "[AvonStage] no worldfile specified on command line. Quit.\n\n" := by
  obtain ⟨⟨st, e1⟩, e2⟩ := optionLoop_plain args h 0 (initialSettings env)
  rw [main_no_worldfile env world paused (prog :: args) st (by simpa using e1)
    (by simpa using e2)]
  simp

/-- C7 (amended): for every argument list on which the option loop runs to its
end (no option ends the run in the loop) and which has no non-option argument,
`main` terminates the process with the nonzero status of `exit(-1)` at the
world-file check: it has made no call at all, so none of `av_init`,
`av_register_model` or the poll loop; the settings are those the options left,
and its last output is the no-worldfile message. -/
theorem C7_no_worldfile_exit (env : BuildEnv) (world : ModelList) (paused : Bool)
    (argv : List String) (st : Settings)
    (h1 : optionLoop (scanArgs 0 (argv.drop 1)).opts (initialSettings env) = Except.ok st)
    (h2 : (scanArgs 0 (argv.drop 1)).operands = []) :
    (main env world paused argv).ending = Ending.exit (-1) ∧
    (main env world paused argv).calls = [] ∧
    (main env world paused argv).worldfilename = none ∧
    (main env world paused argv).settings =
      { st with stdout := st.stdout ++
          ["[AvonStage] no worldfile specified on command line. Quit.\n\n"] } ∧
    (main env world paused argv).settings.stdout.getLast? =
      some "[AvonStage] no worldfile specified on command line. Quit.\n\n" := by
  rw [main_no_worldfile env world paused argv st h1 h2]
  simp

/-- C7 (amended) at `prog` alone, at the cluster `prog -cg`, at
`prog --port=9001`, at the abbreviation `prog --clo`, at `prog -v --` and at
`prog --gui=x --verb`. -/
theorem C7_no_worldfile_exit_witness :
    (main envSample worldSample false ["prog"]).ending = Ending.exit (-1) ∧
    (main envSample worldSample false ["prog"]).calls = [] ∧
    (main envSample worldSample false ["prog", "-cg"]).ending = Ending.exit (-1) ∧
    (main envSample worldSample false ["prog", "--port=9001"]).ending = Ending.exit (-1) ∧
    (main envSample worldSample false ["prog", "--clo"]).ending = Ending.exit (-1) ∧
    (main envSample worldSample false ["prog", "-v", "--"]).ending = Ending.exit (-1) ∧
    (main envSample worldSample false ["prog", "--gui=x", "--verb"]).ending =
      Ending.exit (-1) :=
  ⟨(C7_no_worldfile_exit envSample worldSample false ["prog"] _ rfl rfl).1,
   (C7_no_worldfile_exit envSample worldSample false ["prog"] _ rfl rfl).2.1,
   (C7_no_worldfile_exit envSample worldSample false ["prog", "-cg"] _ rfl rfl).1,
   (C7_no_worldfile_exit envSample worldSample false ["prog", "--port=9001"] _ rfl rfl).1,
   (C7_no_worldfile_exit envSample worldSample false ["prog", "--clo"] _ rfl rfl).1,
   (C7_no_worldfile_exit envSample worldSample false ["prog", "-v", "--"] _ rfl rfl).1,
   (C7_no_worldfile_exit envSample worldSample false ["prog", "--gui=x", "--verb"]
      _ rfl rfl).1⟩

/-- A cluster with a character that is not in the option string gives a return
of `?`, after the returns for the characters before it, all of the option
string and without argument. -/
theorem shortCluster_question (i : Nat) (c : Char) (hn : c ∉ optstring) :
    ∀ cs : List Char, c ∈ cs →
      ∃ pre os, shortCluster i cs = pre ++ { ch := '?', optarg := none, optindex := i } :: os ∧
        ∀ o ∈ pre, o.ch ∈ optstring ∧ o.optarg = none := by
  intro cs
  induction cs with
  | nil => intro h; simp at h
  | cons d ds ih =>
    intro h
    by_cases hd : d ∈ optstring ∧ d ≠ ':' ∧ d ≠ ';'
    · have hcd : c ≠ d := fun e => hn (e ▸ hd.1)
      have hc : c ∈ ds := by
        rcases List.mem_cons.1 h with e | e
        · exact absurd e hcd
        · exact e
      obtain ⟨pre, os, e, hp⟩ := ih hc
      refine ⟨{ ch := d, optarg := none, optindex := i } :: pre, os, ?_, ?_⟩
      · rw [shortCluster, if_pos hd, e]; rfl
      · intro o ho
        rcases List.mem_cons.1 ho with e1 | e1
        · subst e1; exact ⟨hd.1, rfl⟩
        · exact hp o e1
    · refine ⟨[], shortCluster i ds, ?_, ?_⟩
      · rw [shortCluster, if_neg hd]; rfl
      · intro o ho; simp at ho

/-- An unrecognized option makes `getopt_long` return `?` wherever the scan meets
the argument: at once for a long name, and for a cluster after the returns for
the characters before the unknown one. -/
theorem scanArgs_unrecognized (arg : String) (h : Unrecognized arg) (i : Nat)
    (rest : List String) :
    ∃ pre os, (scanArgs i (arg :: rest)).opts =
        pre ++ { ch := '?', optarg := none, optindex := i } :: os ∧
      ∀ o ∈ pre, o.ch ∈ optstring ∧ o.optarg = none := by
  rcases h with ⟨cs, c, e, hc, hm, hn⟩ | ⟨text, e, hne, hl⟩
  · obtain ⟨pre, os, ec, hp⟩ := shortCluster_question i c hn cs hm
    rw [scanArgs]
    split
    · rename_i heq; rw [e] at heq; simp at heq; subst heq; simp at hc
    · rename_i heq; rw [e] at heq; simp at heq; subst heq; simp at hc
    · rename_i c1 cs1 _ heq
      rw [e] at heq
      simp only [List.cons.injEq, true_and] at heq
      subst heq
      refine ⟨pre, os ++ (scanArgs i rest).opts, ?_, hp⟩
      simp [ec]
    · rename_i hx
      cases cs with
      | nil => simp at hm
      | cons c1 cs1 => exact absurd e (hx c1 cs1)
  · refine ⟨[], (scanArgs i rest).opts, ?_, by simp⟩
    rw [scanArgs]
    split
    · rename_i heq; rw [e] at heq; simp at heq; exact absurd heq hne
    · rename_i text1 _ heq
      rw [e] at heq
      simp only [List.cons.injEq, true_and] at heq
      subst heq
      rw [hl]
      rfl
    · rename_i hx heq
      rw [e] at heq
      simp only [List.cons.injEq, true_and] at heq
      exact absurd heq.1.symm hx
    · simp_all

/-- The option loop over a list of returns goes on with the rest once it has
come through the first part. -/
theorem optionLoop_append (l : List Opt) :
    ∀ (pre : List Opt) (s st : Settings), optionLoop pre s = Except.ok st →
      optionLoop (pre ++ l) s = optionLoop l st := by
  intro pre
  induction pre with
  | nil => intro s st h; simp only [optionLoop, Except.ok.injEq] at h; subst h; rfl
  | cons o os ih =>
    intro s st h
    simp only [optionLoop, List.cons_append] at h ⊢
    cases e : optionSwitch o s with
    | error x => rw [e] at h; simp at h
    | ok s1 => rw [e] at h; simp only at h ⊢; exact ih s1 st h

/-- The `case '?'` of the option loop prints the usage text and ends the
process with `exit(0)`. -/
theorem optionSwitch_question (q : Opt) (hq : q.ch = '?') (st : Settings) :
    optionSwitch q st =
      Except.error ({ st with stdout := st.stdout ++ [USAGE ++ "\n"] }, Ending.exit 0) := by
  have h0 : ¬ ('?' = Char.ofNat 0) := by decide
  simp [optionSwitch, hq, h0]

/-- A list of returns with a `?` in it is the returns before the first `?`, that
`?`, and the rest. -/
theorem beforeQuestion_split (opts : List Opt) (h : ∃ q ∈ opts, q.ch = '?') :
    ∃ q post, q.ch = '?' ∧ opts = beforeQuestion opts ++ q :: post := by
  induction opts with
  | nil => obtain ⟨q, hq, _⟩ := h; simp at hq
  | cons o os ih =>
    by_cases ho : o.ch = '?'
    · exact ⟨o, os, ho, by simp [beforeQuestion, ho]⟩
    · obtain ⟨q, hq, hc⟩ := h
      have hq1 : q ∈ os := by
        rcases List.mem_cons.1 hq with e | e
        · subst e; exact absurd hc ho
        · exact e
      obtain ⟨q1, post, h1, h2⟩ := ih ⟨q, hq1, hc⟩
      refine ⟨q1, post, h1, ?_⟩
      simp only [beforeQuestion] at h2 ⊢
      rw [List.takeWhile_cons_of_pos (by simpa using ho), List.cons_append, ← h2]

/-- When `getopt_long` returns `?` and the options before it have not ended the
run, `main` prints the usage text and ends in the option loop with `exit(0)`:
the settings are those of the options before the `?`, no world file is picked
up and no call is made. -/
theorem main_question (env : BuildEnv) (world : ModelList) (paused : Bool)
    (argv : List String) (st : Settings)
    (h : ∃ q ∈ (scanArgs 0 (argv.drop 1)).opts, q.ch = '?')
    (hl : optionLoop (beforeQuestion (scanArgs 0 (argv.drop 1)).opts) (initialSettings env) =
      Except.ok st) :
    main env world paused argv =
      { settings := { st with stdout := st.stdout ++ [USAGE ++ "\n"] }
        worldfilename := none
        calls := []
        ending := Ending.exit 0 } := by
  obtain ⟨q, post, hq, e⟩ := beforeQuestion_split _ h
  have h1 : optionLoop (scanArgs 0 (argv.drop 1)).opts (initialSettings env) =
      Except.error ({ st with stdout := st.stdout ++ [USAGE ++ "\n"] }, Ending.exit 0) := by
    rw [e, optionLoop_append (q :: post) _ _ st hl, optionLoop, optionSwitch_question q hq]
  simp only [main, h1]

/-- C8 as stated fails: in `prog -z --clock world.cfg` and in
`prog --bogus --clock world.cfg` the unrecognized option makes `main` print the
usage text and end in the option loop with `exit(0)`; the later `--clock` has no
effect and no world file is picked up. -/
theorem C8_counterexample_exits_in_loop :
    (main envSample worldSample false ["prog", "-z", "--clock", "world.cfg"]).ending =
      Ending.exit 0 ∧
    (main envSample worldSample false
      ["prog", "-z", "--clock", "world.cfg"]).settings.showclock = false ∧
    (main envSample worldSample false ["prog", "-z", "--clock", "world.cfg"]).worldfilename =
      none ∧
    (main envSample worldSample false ["prog", "--bogus", "--clock", "world.cfg"]).ending =
      Ending.exit 0 ∧
    (main envSample worldSample false ["prog", "--clock", "world.cfg"]).settings.showclock =
      true := by
  decide

/-- C8 (amended): for every argument list in which the scan of `getopt_long`
comes to an argument holding an option the parser does not recognize (a cluster
with a character that is not in the option string, or a long name that neither
is nor abbreviates a name of `longopts`), wherever that argument stands, and in
which the options returned before the first `?` have not ended the run, `main`
prints the usage text and terminates the process in the option loop with
`exit(0)`: the settings are those the options before it left, the later options
take no effect, no world file is picked up and no call is made. -/
theorem C8_unrecognized_option_exits (env : BuildEnv) (world : ModelList) (paused : Bool)
    (prog : String) (before : List String) (arg : String) (rest : List String)
    (pre : List Opt) (j : Nat) (st : Settings) (h : Unrecognized arg)
    (hs : (scanArgs 0 (before ++ arg :: rest)).opts =
      pre ++ (scanArgs j (arg :: rest)).opts)
    (hl : optionLoop (beforeQuestion (scanArgs 0 (before ++ arg :: rest)).opts)
      (initialSettings env) = Except.ok st) :
    main env world paused (prog :: (before ++ arg :: rest)) =
      { settings := { st with stdout := st.stdout ++ [USAGE ++ "\n"] }
        worldfilename := none
        calls := []
        ending := Ending.exit 0 } := by
  obtain ⟨fl, os, e, _⟩ := scanArgs_unrecognized arg h j rest
  refine main_question env world paused (prog :: (before ++ arg :: rest)) st ?_ hl
  refine ⟨{ ch := '?', optarg := none, optindex := j }, ?_, rfl⟩
  simp only [List.drop_succ_cons, List.drop_zero]
  rw [hs, e]
  simp

/-- C8 (amended) at `prog --clock -z world.cfg`, at `prog world.cfg -z`, at the
cluster `prog -cz world.cfg` and at `prog -v --bogus=1 --clock world.cfg`. -/
theorem C8_unrecognized_option_exits_witness :
    (main envSample worldSample false ["prog", "--clock", "-z", "world.cfg"]).ending =
      Ending.exit 0 ∧
    (main envSample worldSample false
      ["prog", "--clock", "-z", "world.cfg"]).settings.showclock = true ∧
    (main envSample worldSample false ["prog", "world.cfg", "-z"]).ending = Ending.exit 0 ∧
    (main envSample worldSample false ["prog", "world.cfg", "-z"]).worldfilename = none ∧
    (main envSample worldSample false ["prog", "-cz", "world.cfg"]).ending = Ending.exit 0 ∧
    (main envSample worldSample false ["prog", "-cz", "world.cfg"]).calls = [] ∧
    (main envSample worldSample false
      ["prog", "-v", "--bogus=1", "--clock", "world.cfg"]).ending = Ending.exit 0 ∧
    (main envSample worldSample false
      ["prog", "-v", "--bogus=1", "--clock", "world.cfg"]).settings.showclock = false :=
  have h1 := C8_unrecognized_option_exits envSample worldSample false "prog" ["--clock"]
    "-z" ["world.cfg"] [{ ch := 'c', optarg := none, optindex := 1 }] 1 _
    (Or.inl ⟨['z'], 'z', rfl, by decide, by decide, by decide⟩) (by decide) rfl
  have h2 := C8_unrecognized_option_exits envSample worldSample false "prog" ["world.cfg"]
    "-z" [] [] 0 _
    (Or.inl ⟨['z'], 'z', rfl, by decide, by decide, by decide⟩) (by decide) rfl
  have h3 := C8_unrecognized_option_exits envSample worldSample false "prog" []
    "-cz" ["world.cfg"] [] 0 _
    (Or.inl ⟨['c', 'z'], 'z', rfl, by decide, by decide, by decide⟩) (by decide) rfl
  have h4 := C8_unrecognized_option_exits envSample worldSample false "prog" ["-v"]
    "--bogus=1" ["--clock", "world.cfg"] [{ ch := 'v', optarg := none, optindex := 0 }] 0 _
    (Or.inr ⟨"bogus=1".toList, rfl, by decide, by decide⟩) (by decide) rfl
  ⟨congrArg MainRun.ending h1, congrArg (fun r => r.settings.showclock) h1,
   congrArg MainRun.ending h2, congrArg MainRun.worldfilename h2,
   congrArg MainRun.ending h3, congrArg MainRun.calls h3,
   congrArg MainRun.ending h4, congrArg (fun r => r.settings.showclock) h4⟩

/-- C9 (evaluation at the failing input): `--help` is the `longopts` entry with
value `h`, the value of `--host`, and comes without argument.  In
`prog --help world.cfg` the `case 'h'` builds the host string from a `NULL`
`optarg`: the run stops there, with the usage text not printed and no
`exit(0)`.  `prog --help=x world.cfg` sets the host to `x` and runs on to the
poll loop.  Only `-?` prints the usage text and ends with `exit(0)`. -/
theorem C9_help_long_option_is_host :
    (scanArgs 0 ["--help", "world.cfg"]).opts =
      [{ ch := 'h', optarg := none, optindex := 2 }] ∧
    (main envSample worldSample false ["prog", "--help", "world.cfg"]).ending =
      Ending.crash ∧
    (main envSample worldSample false ["prog", "--help", "world.cfg"]).settings.stdout =
      ["Stage 4.0.0 "] ∧
    (main envSample worldSample false ["prog", "--help=x", "world.cfg"]).settings.host =
      "x" ∧
    (main envSample worldSample false ["prog", "--help=x", "world.cfg"]).ending =
      Ending.pollLoop ∧
    (main envSample worldSample false ["prog", "-?", "world.cfg"]).ending = Ending.exit 0 ∧
    (main envSample worldSample false ["prog", "-?", "world.cfg"]).settings.stdout =
      ["Stage 4.0.0 ", USAGE ++ "\n"] ∧
    (main envSample worldSample false ["prog", "-?", "world.cfg"]).settings.host =
      "localhost" := by
  refine ⟨by decide, by decide, by decide, by decide, by decide, by decide, rfl, by decide⟩

/-- C10 (evaluation at the failing input): `a` is not in the option string
`"cvrgh?p?"`, so `-a str` is an unrecognized option: `prog -a str world.cfg`
prints the usage text and ends with `exit(0)`, the controller-argument string
unset, while `prog --args str world.cfg` sets it to `str` and runs on.  The
pairs `-c`/`--clock`, `-g`/`--gui`, `-v`/`--verbose` do agree. -/
theorem C10_short_args_option_rejected :
    'a' ∉ optstring ∧
    (main envSample worldSample false ["prog", "-a", "str", "world.cfg"]).ending =
      Ending.exit 0 ∧
    (main envSample worldSample false ["prog", "-a", "str", "world.cfg"]).settings.ctrlargs =
      "" ∧
    (main envSample worldSample false
      ["prog", "--args", "str", "world.cfg"]).settings.ctrlargs = "str" ∧
    (main envSample worldSample false ["prog", "--args", "str", "world.cfg"]).ending =
      Ending.pollLoop ∧
    (main envSample worldSample false ["prog", "-c", "world.cfg"]).settings =
      (main envSample worldSample false ["prog", "--clock", "world.cfg"]).settings ∧
    (main envSample worldSample false ["prog", "-c", "world.cfg"]).settings.showclock =
      true ∧
    (main envSample worldSample false ["prog", "-g", "world.cfg"]).settings =
      (main envSample worldSample false ["prog", "--gui", "world.cfg"]).settings ∧
    (main envSample worldSample false ["prog", "-g", "world.cfg"]).settings.usegui =
      false ∧
    (main envSample worldSample false ["prog", "-v", "world.cfg"]).settings =
      (main envSample worldSample false ["prog", "--verbose", "world.cfg"]).settings ∧
    (main envSample worldSample false ["prog", "-v", "world.cfg"]).settings.verbose =
      true := by
  decide

/-! ## Ranger command and configuration callbacks -/

/-- C11: for every model and every command or configuration packet, each of
`RangerCmd`, `RangerCfgSet` and `RangerCfgGet` returns 0, leaves the model and
the packet as they were, and adds exactly one line to standard output. -/
theorem C11_ranger_noop_callbacks {M C : Type} (mod : M) (data : C) (stdout : List String) :
    (RangerCmd mod data stdout).2 = 0 ∧
    (RangerCmd mod data stdout).1.1 = mod ∧
    (RangerCmd mod data stdout).1.2.1 = data ∧
    (RangerCmd mod data stdout).1.2.2 = stdout ++ ["ranger command does nothing\n"] ∧
    (RangerCfgSet mod data stdout).2 = 0 ∧
    (RangerCfgSet mod data stdout).1.1 = mod ∧
    (RangerCfgSet mod data stdout).1.2.1 = data ∧
    (RangerCfgSet mod data stdout).1.2.2 = stdout ++ ["ranger setcfg does nothing\n"] ∧
    (RangerCfgGet mod data stdout).2 = 0 ∧
    (RangerCfgGet mod data stdout).1.1 = mod ∧
    (RangerCfgGet mod data stdout).1.2.1 = data ∧
    (RangerCfgGet mod data stdout).1.2.2 = stdout ++ ["ranger getcfg does nothing\n"] := by
  simp [RangerCmd, RangerCfgSet, RangerCfgGet]

/-! ## Calls made by the generic callbacks -/

/-- C12: for every model and packet, (1) one call of `SetModelGeom` makes
exactly the calls `SetGeom`, then `Redraw`: `Redraw` once, after `SetGeom`;
(2) one call of `SetModelPVA` makes exactly the calls `SetPose`, then
`SetVelocity`: `Redraw` not at all; on the model that counts its `Redraw`s the
count goes up by one and by zero; (3) `GetModelPVA` and `GetModelGeom` return
only a packet and a result, no new model state, and what they return is the
same under any two model interfaces that answer the reads alike, whatever
their setters and `Redraw` do: they call neither. -/
theorem C12_redraw_and_setter_calls {M α : Type} [Zero α] (ops : ModelOps M α) (m : M)
    (log : List (ModelCall α)) (P : av_pva_t α) (G : av_geom_t α) :
    (SetModelGeom (tracedOps ops) (m, log) G).1.2 =
      log ++ [ModelCall.SetGeom (Geom.mk (Pose.mk (G.pose 0) (G.pose 1) (G.pose 2) (G.pose 5))
        (Size.mk (G.extent 0) (G.extent 1) (G.extent 2))), ModelCall.Redraw] ∧
    (SetModelPVA (tracedOps ops) (m, log) P).1.2 =
      log ++ [ModelCall.SetPose (Pose.mk (P.p 0) (P.p 1) (P.p 2) (P.p 5)),
        ModelCall.SetVelocity (Velocity.mk (P.v 0) (P.v 1) (P.v 2) (P.v 5))] ∧
    (∀ s : StoredModel α, (SetModelGeom (storedOps α) s G).1.redraws = s.redraws + 1) ∧
    (∀ s : StoredModel α, (SetModelPVA (storedOps α) s P).1.redraws = s.redraws) ∧
    (∀ (N : Type) (ops1 : ModelOps N α) (n : N) (P0 P1 : av_pva_t α),
      SameReads ops m ops1 n → GetModelPVA ops m P0 = GetModelPVA ops1 n P1) ∧
    (∀ (N : Type) (ops1 : ModelOps N α) (n : N) (G0 G1 : av_geom_t α),
      SameReads ops m ops1 n → GetModelGeom ops m G0 = GetModelGeom ops1 n G1) := by
  refine ⟨?_, ?_, ?_, ?_, ?_, ?_⟩
  · simp [SetModelGeom, tracedOps]
  · simp [SetModelPVA, tracedOps]
  · intro s; rfl
  · intro s; rfl
  · intro N ops1 n P0 P1 h
    obtain ⟨h1, h2, h3, _⟩ := h
    simp only [GetModelPVA, GetTime, h1, h2, h3]
  · intro N ops1 n G0 G1 h
    obtain ⟨h1, _, _, h4⟩ := h
    simp only [GetModelGeom, GetTime, h1, h4]

/-- C13: for every model with pose `(x, y, z, a)` and velocity
`(vx, vy, vz, va)` in a world at simulated time `t`, `GetModelPVA` returns 0 and
a packet that owes nothing to the old contents `P0` of the output packet:
`time` is `t` as an unsigned 64-bit count, `p = [x, y, z, 0, 0, a]` and
`v = [vx, vy, vz, 0, 0, va]`. -/
theorem C13_get_pva_packet {M α : Type} [Zero α] (ops : ModelOps M α) (m : M)
    (P0 : av_pva_t α) :
    (GetModelPVA ops m P0).2 = 0 ∧
    (GetModelPVA ops m P0).1.time = ops.SimTimeNow m % 2 ^ 64 ∧
    (GetModelPVA ops m P0).1.p =
      ![(ops.GetPose m).x, (ops.GetPose m).y, (ops.GetPose m).z, 0, 0, (ops.GetPose m).a] ∧
    (GetModelPVA ops m P0).1.v =
      ![(ops.GetVelocity m).x, (ops.GetVelocity m).y, (ops.GetVelocity m).z, 0, 0,
        (ops.GetVelocity m).a] := by
  refine ⟨rfl, rfl, ?_, ?_⟩
  · funext i
    fin_cases i <;> rfl
  · funext i
    fin_cases i <;> rfl

/-- C14: for every model, `RegisterModel` returns 0 and registers exactly one
device, of type `AV_MODEL_POSITION2D` if and only if the model's type string is
exactly `"position"`, of type `AV_MODEL_RANGER` if and only if it is exactly
`"ranger"`, and of type `AV_MODEL_GENERIC` for every other string; so for
`"Position"`, `"RANGER"` and the empty string. -/
theorem C14_register_model_type (mod : Model) (reg : Registry) :
    (RegisterModel mod reg).2 = 0 ∧
    (∃ d, (RegisterModel mod reg).1 = reg ++ [d] ∧
      d.name = mod.token ∧ d.handle = mod ∧
      (d.type = av_type_t.AV_MODEL_POSITION2D ↔ mod.type = "position") ∧
      (d.type = av_type_t.AV_MODEL_RANGER ↔ mod.type = "ranger") ∧
      (d.type = av_type_t.AV_MODEL_GENERIC ↔
        (mod.type ≠ "position" ∧ mod.type ≠ "ranger"))) ∧
    (∀ ty ∈ ["Position", "RANGER", "", "position ", "laser"],
      ∀ d ∈ (RegisterModel { mod with type := ty } reg).1, d ∈ reg ∨
        d.type = av_type_t.AV_MODEL_GENERIC) := by
  refine ⟨rfl, ?_, ?_⟩
  · refine ⟨_, rfl, rfl, rfl, ?_⟩
    simp only [Model.GetModelType]
    by_cases h1 : mod.type = "position"
    · simp [h1]
    · by_cases h2 : mod.type = "ranger"
      · simp [h2]
      · simp [h1, h2]
  · intro ty hty d hd
    simp only [RegisterModel, av_register_model, Model.GetModelType, List.mem_append,
      List.mem_singleton] at hd
    rcases hd with hd | hd
    · exact Or.inl hd
    · right
      subst hd
      simp only [List.mem_cons, List.mem_singleton, List.not_mem_nil, or_false] at hty
      rcases hty with h | h | h | h | h <;> subst h <;> simp

/-! ## Ranger data: the unchecked paths -/

/-- C16 (evaluation at the failing input): with room for three samples in a
transducer record, a ranger with one sensor of four ranges and four
intensities passes both assertions of `RangerData` (one sensor, equal lengths);
`sample_count` is then set to 4, above the capacity 3, and the sample loop
writes index 3, outside `samples[]`. -/
theorem C16_sample_index_unchecked :
    limSample.AV_RANGER_SAMPLES_MAX = 3 ∧
    (storedOps Int).GetSensors fourSampleRanger =
      some [{ pose := Pose.mk 1 2 3 4, ranges := [10, 11, 12, 13],
              intensities := [20, 21, 22, 23] }] ∧
    (RangerData limSample (storedOps Int) fourSampleRanger).result =
      Except.error Fault.outOfBounds ∧
    ((RangerData limSample (storedOps Int) fourSampleRanger).rd.transducers.map
      (fun tr => tr.sample_count)) = [4, 0] ∧
    ((RangerData limSample (storedOps Int) fourSampleRanger).rd.transducers.map
      (fun tr => tr.samples.length)) = [3, 3] := by
  decide

/-! ## The port setting -/

/-- The digits of the decimal numeral of `n`, read back. -/
theorem digitsValue_toString (n : Nat) : digitsValue 0 (toString n).toList = n := by
  have hl : (toString n).toList = Nat.toDigitsCore 10 (n + 1) n [] := rfl
  rw [hl, digitsValue_toDigitsCore (n + 1) n [] (by omega)]
  rfl

/-- `strtol` on the decimal numeral of a number in the range of `long`. -/
theorem strtol10_toString (n : Nat) (h : n < 2 ^ 63) : strtol10 (toString n).toList = n := by
  obtain ⟨k, cs, hk, e⟩ := toDigitsCore_head (n + 1) n [] (Or.inl (by omega))
  obtain ⟨_, _, h3, h4, h5⟩ := digitChar_facts k hk
  have hv := digitsValue_toString n
  have hl : (toString n).toList = Nat.toDigitsCore 10 (n + 1) n [] := rfl
  rw [hl] at hv ⊢
  unfold strtol10
  rw [e] at hv ⊢
  rw [List.dropWhile_cons_of_neg (by simp [h3])]
  split
  · rename_i heq; simp at heq; exact absurd heq.1 h4
  · rename_i heq; simp at heq; exact absurd heq.1 h5
  · rw [hv]; omega

/-- `strtol` on a minus sign followed by the decimal numeral of a number whose
negative is in the range of `long`. -/
theorem strtol10_neg_toString (n : Nat) (h : n ≤ 2 ^ 63) :
    strtol10 ("-" ++ toString n).toList = -(n : Int) := by
  have hl : ("-" ++ toString n).toList = '-' :: (toString n).toList := rfl
  rw [hl]
  unfold strtol10
  rw [List.dropWhile_cons_of_neg (by decide)]
  simp only [digitsValue_toString]
  omega

/-- `strtol` on a text that does not start with white space, a sign or a
digit. -/
theorem strtol10_no_number (s : List Char)
    (h : ∀ c cs, s = c :: cs →
      isspace c = false ∧ c ≠ '-' ∧ c ≠ '+' ∧ c.isDigit = false) :
    strtol10 s = 0 := by
  cases s with
  | nil => rfl
  | cons c cs =>
    obtain ⟨h1, h2, h3, h4⟩ := h c cs rfl
    unfold strtol10
    rw [List.dropWhile_cons_of_neg (by simp [h1])]
    split
    · rename_i heq; simp at heq; exact absurd heq.1 h2
    · rename_i heq; simp at heq; exact absurd heq.1 h3
    · simp [digitsValue, h4]

/-- The run of `main` on `prog --port s w`: the port is `atoi(s)` converted to
`unsigned short`. -/
theorem main_port (env : BuildEnv) (world : ModelList) (paused : Bool)
    (prog s w : String) (hw : w.toList.head? ≠ some '-') :
    (main env world paused [prog, "--port", s, w]).settings.port =
      toUnsignedShort (atoi s) := by
  have hscan : scanArgs 0 ["--port", s, w] =
      { opts := [{ ch := 'p', optarg := some s, optindex := 5 }], operands := [w] } := by
    rw [scanArgs_port, scanArgs_operand _ _ _ hw]
    rfl
  have hloop : optionLoop [{ ch := 'p', optarg := some s, optindex := 5 }]
      (initialSettings env) =
      Except.ok { initialSettings env with port := toUnsignedShort (atoi s) } := rfl
  simp only [main, List.drop_one, List.tail_cons, hscan, hloop, List.head?_cons]

/-- C19: for every argument `s` of `--port` the configured port is `atoi(s)`
reduced modulo `2 ^ 16`.  So the decimal numeral of any `n` in the range of
`long` gives `n mod 65536` (`65536` and above wrap, nothing is rejected), a
minus sign before it gives `-n mod 65536`, and an argument that does not start
with white space, a sign or a digit gives port 0. -/
theorem C19_port_wraps (env : BuildEnv) (world : ModelList) (paused : Bool)
    (prog w : String) (hw : w.toList.head? ≠ some '-') :
    (∀ s : String, (main env world paused [prog, "--port", s, w]).settings.port =
      (atoi s % 65536).toNat) ∧
    (∀ n : Nat, n < 2 ^ 63 →
      (main env world paused [prog, "--port", toString n, w]).settings.port = n % 65536) ∧
    (∀ n : Nat, n ≤ 2 ^ 63 →
      ((main env world paused [prog, "--port", "-" ++ toString n, w]).settings.port : Int) =
        (-(n : Int)) % 65536) ∧
    (∀ s : String,
      (∀ c cs, s.toList = c :: cs →
        isspace c = false ∧ c ≠ '-' ∧ c ≠ '+' ∧ c.isDigit = false) →
      (main env world paused [prog, "--port", s, w]).settings.port = 0) := by
  refine ⟨?_, ?_, ?_, ?_⟩
  · intro s
    rw [main_port env world paused prog s w hw]
    rfl
  · intro n hn
    rw [main_port env world paused prog _ w hw]
    unfold toUnsignedShort atoi
    rw [strtol10_toString n hn]
    omega
  · intro n hn
    rw [main_port env world paused prog _ w hw]
    unfold toUnsignedShort atoi
    rw [strtol10_neg_toString n hn]
    omega
  · intro s hs
    rw [main_port env world paused prog _ w hw]
    unfold toUnsignedShort atoi
    rw [strtol10_no_number s.toList hs]
    rfl

/-- C19 at `--port 70000` (port 4464), `--port -1` (port 65535) and
`--port http` (port 0). -/
theorem C19_port_wraps_witness :
    (main envSample worldSample false ["prog", "--port", "70000", "w"]).settings.port =
      4464 ∧
    ((main envSample worldSample false ["prog", "--port", "-1", "w"]).settings.port : Int) =
      65535 ∧
    (main envSample worldSample false ["prog", "--port", "http", "w"]).settings.port = 0 :=
  have h := C19_port_wraps envSample worldSample false "prog" "w" (by decide)
  ⟨h.2.1 70000 (by decide), h.2.2.1 1 (by decide),
    h.2.2.2 "http" (by
      intro c cs hc
      have : c = 'h' := by
        have h0 : "http".toList = ['h', 't', 't', 'p'] := rfl
        rw [h0] at hc
        exact (List.cons.inj hc).1.symm
      subst this
      decide)⟩

/-! ## Poll loop -/

/-- The loop run for `n` iterations performs `n` times the loop body and has
not been left. -/
theorem pollLoop_eq (n : Nat) :
    pollLoop n = ((List.replicate n pollTick).flatten, false) := by
  induction n with
  | zero => rfl
  | succ n ih =>
    simp only [pollLoop, ih, List.replicate_succ, List.flatten_cons]
    simp

/-- The number of actions in `n` repetitions of the loop body. -/
theorem pollTicks_length (n : Nat) : ((List.replicate n pollTick).flatten).length = 3 * n := by
  induction n with
  | zero => rfl
  | succ n ih =>
    simp only [List.replicate_succ, List.flatten_cons, List.length_append, ih]
    simp [pollTick]
    omega

/-- The actions of tick `k` in the repetitions of the loop body. -/
theorem pollTicks_getElem (n : Nat) :
    ∀ k, k < n →
      ((List.replicate n pollTick).flatten)[3 * k]? = some LoopAction.Fl_check ∧
      ((List.replicate n pollTick).flatten)[3 * k + 1]? = some LoopAction.av_check ∧
      ((List.replicate n pollTick).flatten)[3 * k + 2]? = some (LoopAction.usleep 100) := by
  induction n with
  | zero => intro k hk; omega
  | succ n ih =>
    intro k hk
    cases k with
    | zero => simp [List.replicate_succ, pollTick]
    | succ k =>
      obtain ⟨h1, h2, h3⟩ := ih k (by omega)
      have e : ∀ j, ((List.replicate (n + 1) pollTick).flatten)[j + 3]? =
          ((List.replicate n pollTick).flatten)[j]? := by
        intro j
        simp [List.replicate_succ, pollTick]
      refine ⟨?_, ?_, ?_⟩
      · rw [show 3 * (k + 1) = 3 * k + 3 by ring, e]; exact h1
      · rw [show 3 * (k + 1) + 1 = 3 * k + 1 + 3 by ring, e]; exact h2
      · rw [show 3 * (k + 1) + 2 = 3 * k + 2 + 3 by ring, e]; exact h3

/-- C18: for every `n`, the first `3 n` actions of the poll loop are `n`
repetitions of the sequence presentation pump (`Fl::check`), protocol pump
(`av_check`), sleep of 100 microseconds: tick `k` performs exactly these three,
in this order, at positions `3 k`, `3 k + 1`, `3 k + 2`.  None of the actions is
a step of the simulation, and however many iterations are run the loop has not
been left. -/
theorem C18_poll_loop_ticks (n : Nat) :
    (pollLoop n).1 = (List.replicate n pollTick).flatten ∧
    pollTick = [LoopAction.Fl_check, LoopAction.av_check, LoopAction.usleep 100] ∧
    (pollLoop n).1.length = 3 * n ∧
    (∀ k, k < n →
      (pollLoop n).1[3 * k]? = some LoopAction.Fl_check ∧
      (pollLoop n).1[3 * k + 1]? = some LoopAction.av_check ∧
      (pollLoop n).1[3 * k + 2]? = some (LoopAction.usleep 100)) ∧
    (∀ m, (pollLoop (n + m)).1.take (3 * n) = (pollLoop n).1) ∧
    LoopAction.world_Update ∉ (pollLoop n).1 ∧
    (pollLoop n).2 = false := by
  rw [pollLoop_eq]
  refine ⟨rfl, rfl, pollTicks_length n, pollTicks_getElem n, ?_, ?_, rfl⟩
  · intro m
    rw [pollLoop_eq]
    simp only
    rw [List.replicate_add, List.flatten_append, ← pollTicks_length n,
      List.take_left]
  · simp only [List.mem_flatten, List.mem_replicate]
    rintro ⟨l, ⟨_, hl⟩, hmem⟩
    subst hl
    simp [pollTick] at hmem

/-! ## Order of the start-up calls and of the registrations -/

/-- `ParentsFirst` only grows with the models seen before. -/
theorem ParentsFirst_mono (l : List Device) :
    ∀ (seen seen1 : List Model), (∀ x ∈ seen, x ∈ seen1) →
      ParentsFirst seen l → ParentsFirst seen1 l := by
  induction l with
  | nil => intro _ _ _ _; trivial
  | cons d ds ih =>
    intro seen seen1 hsub h
    obtain ⟨h1, h2⟩ := h
    refine ⟨fun par hp => hsub par (h1 par hp), ?_⟩
    refine ih (d.handle :: seen) (d.handle :: seen1) ?_ h2
    intro x hx
    simp only [List.mem_cons] at hx ⊢
    rcases hx with hx | hx
    · exact Or.inl hx
    · exact Or.inr (hsub x hx)

/-- `ParentsFirst` of two sequences one after the other. -/
theorem ParentsFirst_append (a : List Device) :
    ∀ (seen : List Model) (b : List Device),
      ParentsFirst seen a → ParentsFirst seen b → ParentsFirst seen (a ++ b) := by
  induction a with
  | nil => intro seen b _ hb; exact hb
  | cons d ds ih =>
    intro seen b ha hb
    obtain ⟨h1, h2⟩ := ha
    refine ⟨h1, ih (d.handle :: seen) b h2 ?_⟩
    exact ParentsFirst_mono b seen (d.handle :: seen) (fun x hx => List.mem_cons_of_mem _ hx) hb

/-- In a `ParentsFirst` sequence the parent of a device's model was seen before
the sequence or has a device earlier in it. -/
theorem ParentsFirst_split (pre : List Device) :
    ∀ (seen : List Model) (d : Device) (post : List Device) (par : Model),
      ParentsFirst seen (pre ++ d :: post) → d.handle.Parent = some par →
      par ∈ seen ∨ ∃ dp ∈ pre, dp.handle = par := by
  induction pre with
  | nil =>
    intro seen d post par h hp
    exact Or.inl (h.1 par hp)
  | cons e es ih =>
    intro seen d post par h hp
    rcases ih (e.handle :: seen) d post par h.2 hp with hm | ⟨dp, hdp, hh⟩
    · simp only [List.mem_cons] at hm
      rcases hm with hm | hm
      · exact Or.inr ⟨e, List.mem_cons_self _ _, hm.symm⟩
      · exact Or.inl hm
    · exact Or.inr ⟨dp, List.mem_cons_of_mem _ hdp, hh⟩

/-- The pre-order walk registers parents first. -/
theorem walk_parentsFirst (l : ModelList) :
    ∀ (anc : List (String × String)) (seen : List Model),
      (∀ tok ty rest, anc = (tok, ty) :: rest →
        ({ token := tok, type := ty, ancestors := rest } : Model) ∈ seen) →
      ParentsFirst seen (ForEachDescendant RegisterModel anc l []) := by
  induction l with
  | nil => intro anc seen _; simp [ForEachDescendant, ParentsFirst]
  | node tok ty kids sibs ihk ihs =>
    intro anc seen hanc
    rw [ForEachDescendant_node, List.append_assoc]
    obtain ⟨d, hd, hh⟩ : ∃ d,
        (RegisterModel { token := tok, type := ty, ancestors := anc } []).1 = [d] ∧
        d.handle = { token := tok, type := ty, ancestors := anc } := ⟨_, rfl, rfl⟩
    rw [hd, List.singleton_append]
    unfold ParentsFirst
    rw [hh]
    refine ⟨?_, ?_⟩
    · intro par hp
      cases anc with
      | nil => simp [Model.Parent] at hp
      | cons a rest =>
        obtain ⟨t, y⟩ := a
        simp only [Model.Parent, Option.some.injEq] at hp
        subst hp
        exact hanc t y rest rfl
    · apply ParentsFirst_append
      · apply ihk
        intro t y rest h
        simp only [List.cons.injEq, Prod.mk.injEq] at h
        obtain ⟨⟨h1, h2⟩, h3⟩ := h
        subst h1 h2 h3
        exact List.mem_cons_self _ _
      · apply ihs
        intro t y rest h
        exact List.mem_cons_of_mem _ (hanc t y rest h)

/-- The calls of a run of `main` that got past the world-file check. -/
theorem main_calls (env : BuildEnv) (world : ModelList) (paused : Bool)
    (argv : List String) (w : String)
    (h : (main env world paused argv).worldfilename = some w) :
    ∃ st : Settings, (main env world paused argv).calls =
      [ Call.av_init st.host st.port st.rootdir st.verbose env.PROJECT env.VERSION,
        Call.av_install_generic_callbacks,
        Call.av_install_typed_callbacks av_type_t.AV_MODEL_RANGER,
        (if st.usegui then Call.newWorldGui w else Call.newWorld w),
        Call.Load w,
        Call.ShowClock st.showclock,
        Call.av_install_clock_callbacks,
        Call.av_startup,
        Call.ForEachDescendant (registerWorld world) ] ++
      (if paused then [] else [Call.Start]) := by
  unfold main at h ⊢
  simp only at h ⊢
  cases hl : optionLoop (scanArgs 0 (argv.drop 1)).opts (initialSettings env) with
  | error e =>
    obtain ⟨st, en⟩ := e
    try rw [hl] at h
    simp at h
  | ok st =>
    try rw [hl] at h
    cases ho : (scanArgs 0 (argv.drop 1)).operands.head? with
    | none =>
      try rw [ho] at h
      simp at h
    | some w1 =>
      try rw [ho] at h
      simp only [Option.some.injEq] at h
      subst h
      exact ⟨_, rfl⟩

/-- C17: in every run of `main` that gets past the world-file check, (1) the
registration walk is performed exactly once; (2) it comes after `world->Load`
and after the generic, typed and clock callbacks are installed, with no
`world->Start` before it, and the only call that can follow it is
`world->Start`, made when the world is not paused; (3) in the walk, every
model whose parent is a model is registered after that parent. -/
theorem C17_registration_walk_order (env : BuildEnv) (world : ModelList) (paused : Bool)
    (argv : List String) (w : String)
    (h : (main env world paused argv).worldfilename = some w) :
    ((main env world paused argv).calls.filter Call.isWalk).length = 1 ∧
    (∃ pre post, (main env world paused argv).calls =
        pre ++ Call.ForEachDescendant (registerWorld world) :: post ∧
      Call.Load w ∈ pre ∧
      Call.av_install_generic_callbacks ∈ pre ∧
      Call.av_install_typed_callbacks av_type_t.AV_MODEL_RANGER ∈ pre ∧
      Call.av_install_clock_callbacks ∈ pre ∧
      Call.Start ∉ pre ∧
      post = (if paused then [] else [Call.Start])) ∧
    (∀ (pre : List Device) (d : Device) (post : List Device) (par : Model),
      registerWorld world = pre ++ d :: post → d.handle.Parent = some par →
      ∃ dp ∈ pre, dp.handle = par) := by
  obtain ⟨st, e⟩ := main_calls env world paused argv w h
  refine ⟨?_, ?_, ?_⟩
  · rw [e]
    cases paused <;> cases hg : st.usegui <;> simp [Call.isWalk, List.filter]
  · refine ⟨[ Call.av_init st.host st.port st.rootdir st.verbose env.PROJECT env.VERSION,
        Call.av_install_generic_callbacks,
        Call.av_install_typed_callbacks av_type_t.AV_MODEL_RANGER,
        (if st.usegui then Call.newWorldGui w else Call.newWorld w),
        Call.Load w,
        Call.ShowClock st.showclock,
        Call.av_install_clock_callbacks,
        Call.av_startup ], _, e.trans (by simp), ?_, ?_, ?_, ?_, ?_, rfl⟩ <;>
      cases hg : st.usegui <;> simp
  · intro pre d post par hreg hp
    have hpf := walk_parentsFirst world [] [] (by intro _ _ _ hc; cases hc)
    unfold registerWorld at hreg
    rw [hreg] at hpf
    rcases ParentsFirst_split pre [] d post par hpf hp with hm | hm
    · cases hm
    · exact hm

/-- C17 at `prog world.cfg` on the sample world: the run passes the world-file
check, and the ranger `r0.ranger`, whose parent is `r0`, is registered second,
after `r0`. -/
theorem C17_registration_walk_order_witness :
    (main envSample worldSample false ["prog", "world.cfg"]).worldfilename =
      some "world.cfg" ∧
    ((main envSample worldSample false ["prog", "world.cfg"]).calls.filter
      Call.isWalk).length = 1 ∧
    (registerWorld worldSample).map (fun d => d.name) =
      ["r0", "r0.ranger", "r0.gripper", "r1"] :=
  ⟨by decide,
   (C17_registration_walk_order envSample worldSample false ["prog", "world.cfg"]
      "world.cfg" (by decide)).1,
   by decide⟩

/-! ## The ranger packet and earlier calls -/

/-- Two positions less than `len` apart fall into different slots. -/
theorem slot_ne (len k n : Nat) (h1 : k < n) (h2 : n - k < len) : k % len ≠ n % len := by
  intro h
  have h3 : (n - k) % len = 0 := Nat.sub_mod_eq_zero_of_mod_eq h.symm
  rw [Nat.mod_eq_of_lt h2] at h3
  omega

/-- One `AppendValue` on a plot in ring-buffer state: the call is defined, the
plot is in ring-buffer state for one value more, and the bounds are updated
with `MIN` and `MAX`. -/
theorem AppendValue_ring {α : Type} [LinearOrder α] [Zero α] (len : Nat) (hlen : 0 < len)
    (p : StripPlotVis α) (done : List (CFloat α)) (v : CFloat α) (h : RingInv len p done) :
    ∃ p1, p.AppendValue v = some p1 ∧ RingInv len p1 (done ++ [v]) ∧
      p1.min = MIN v p.min ∧ p1.max = MAX v p.max := by
  obtain ⟨hl, hd, hc, hring, hzero⟩ := h
  have hlt : p.count % p.len < p.data.length := by
    rw [hl, hd]; exact Nat.mod_lt _ hlen
  have e : p.AppendValue v = some (StripPlotVis.mk (p.data.set (p.count % p.len) v) p.len
      (p.count + 1) p.x p.y p.w p.h (MIN v p.min) (MAX v p.max) p.fgcolor p.bgcolor) := by
    simp only [StripPlotVis.AppendValue, if_neg (by omega : ¬ p.len = 0), if_pos hlt]
  refine ⟨_, e, ⟨hl, by simpa using hd, by simp [hc], ?_, ?_⟩, rfl, rfl⟩
  · intro k hk1 hk2
    simp only [List.length_append, List.length_singleton] at hk1 hk2
    simp only [hl, hc, List.getElem?_set]
    by_cases hk : k = done.length
    · subst hk
      rw [if_pos rfl, if_pos (by rw [hd]; exact Nat.mod_lt _ hlen)]
      simp
    · have hne : done.length % len ≠ k % len :=
        fun e => slot_ne len k done.length (by omega) (by omega) e.symm
      rw [if_neg hne, hring k (by omega) (by omega),
        List.getElem?_append_left (by omega)]
  · intro j hj1 hj2
    simp only [List.length_append, List.length_singleton] at hj1
    simp only [hl, hc, List.getElem?_set]
    have hm : done.length % len = done.length := Nat.mod_eq_of_lt (by omega)
    rw [if_neg (by omega)]
    exact hzero j (by omega) hj2

/-- A sequence of `AppendValue` calls on a plot in ring-buffer state: every call
is defined and the plot ends in ring-buffer state for all the values. -/
theorem appendValues_ring {α : Type} [LinearOrder α] [Zero α] (len : Nat) (hlen : 0 < len)
    (vs : List (CFloat α)) :
    ∀ (p : StripPlotVis α) (done : List (CFloat α)), RingInv len p done →
      ∃ p1, p.appendValues vs = some p1 ∧ RingInv len p1 (done ++ vs) := by
  induction vs with
  | nil =>
    intro p done h
    exact ⟨p, rfl, by simpa using h⟩
  | cons v vs ih =>
    intro p done h
    obtain ⟨p1, e1, h1, _, _⟩ := AppendValue_ring len hlen p done v h
    obtain ⟨p2, e2, h2⟩ := ih p1 (done ++ [v]) h1
    refine ⟨p2, ?_, by simpa using h2⟩
    simp only [StripPlotVis.appendValues, e1]
    exact e2

/-- A fresh plot is in ring-buffer state for no values. -/
theorem new_ring {α : Type} [Zero α] (lits : Literals α) (x y w h : CFloat α) (len : Nat)
    (fg bg : Nat) : RingInv len (StripPlotVis.new lits x y w h len fg bg) [] := by
  refine ⟨rfl, by simp [StripPlotVis.new], rfl, ?_, ?_⟩
  · intro k _ hk
    simp at hk
  · intro j _ hj
    simp [StripPlotVis.new, hj]

/-- The bounds after one more value that is a number. -/
theorem bounds_step {α : Type} [LinearOrder α] (lits : Literals α) (p p1 : StripPlotVis α)
    (done : List (CFloat α)) (x : α) (h : BoundsInv lits p done)
    (hmin : p1.min = MIN (CFloat.num x) p.min) (hmax : p1.max = MAX (CFloat.num x) p.max) :
    BoundsInv lits p1 (done ++ [CFloat.num x]) := by
  obtain ⟨lo, hi, e1, e2, m1, m2, b1, b2, hall⟩ := h
  rw [e1] at hmin
  rw [e2] at hmax
  simp only [MIN, MAX, CFloat.lt, decide_eq_true_eq] at hmin hmax
  by_cases c1 : x < lo
  · by_cases c2 : hi < x
    · rw [if_pos c1] at hmin
      rw [if_pos c2] at hmax
      refine ⟨x, x, hmin, hmax, Or.inr (by simp), Or.inr (by simp), by
        exact le_trans (le_of_lt c1) b1, le_trans b2 (le_of_lt c2), ?_⟩
      intro y hy
      simp only [List.mem_append, List.mem_singleton, CFloat.num.injEq] at hy
      rcases hy with hy | hy
      · obtain ⟨y1, y2⟩ := hall y hy
        exact absurd (lt_of_lt_of_le (lt_of_le_of_lt y2 c2) (le_of_lt c1)) (not_lt.mpr y1)
      · subst hy; exact ⟨le_refl _, le_refl _⟩
    · rw [if_pos c1] at hmin
      rw [if_neg c2] at hmax
      refine ⟨x, hi, hmin, hmax, Or.inr (by simp), ?_, le_trans (le_of_lt c1) b1, b2, ?_⟩
      · rcases m2 with m2 | m2
        · exact Or.inl m2
        · exact Or.inr (List.mem_append_left _ m2)
      · intro y hy
        simp only [List.mem_append, List.mem_singleton, CFloat.num.injEq] at hy
        rcases hy with hy | hy
        · obtain ⟨y1, y2⟩ := hall y hy
          exact ⟨le_trans (le_of_lt c1) y1, y2⟩
        · subst hy; exact ⟨le_refl _, not_lt.mp c2⟩
  · by_cases c2 : hi < x
    · rw [if_neg c1] at hmin
      rw [if_pos c2] at hmax
      refine ⟨lo, x, hmin, hmax, ?_, Or.inr (by simp), b1, le_trans b2 (le_of_lt c2), ?_⟩
      · rcases m1 with m1 | m1
        · exact Or.inl m1
        · exact Or.inr (List.mem_append_left _ m1)
      · intro y hy
        simp only [List.mem_append, List.mem_singleton, CFloat.num.injEq] at hy
        rcases hy with hy | hy
        · obtain ⟨y1, y2⟩ := hall y hy
          exact ⟨y1, le_trans y2 (le_of_lt c2)⟩
        · subst hy; exact ⟨not_lt.mp c1, le_refl _⟩
    · rw [if_neg c1] at hmin
      rw [if_neg c2] at hmax
      refine ⟨lo, hi, hmin, hmax, ?_, ?_, b1, b2, ?_⟩
      · rcases m1 with m1 | m1
        · exact Or.inl m1
        · exact Or.inr (List.mem_append_left _ m1)
      · rcases m2 with m2 | m2
        · exact Or.inl m2
        · exact Or.inr (List.mem_append_left _ m2)
      · intro y hy
        simp only [List.mem_append, List.mem_singleton, CFloat.num.injEq] at hy
        rcases hy with hy | hy
        · exact hall y hy
        · subst hy; exact ⟨not_lt.mp c1, not_lt.mp c2⟩

/-- A sequence of `AppendValue` calls with numbers only keeps the bounds. -/
theorem appendValues_bounds {α : Type} [LinearOrder α] [Zero α] (lits : Literals α)
    (len : Nat) (hlen : 0 < len) (vs : List (CFloat α)) :
    ∀ (p p1 : StripPlotVis α) (done : List (CFloat α)), RingInv len p done →
      BoundsInv lits p done → (∀ v ∈ vs, v ≠ CFloat.nan) →
      p.appendValues vs = some p1 → BoundsInv lits p1 (done ++ vs) := by
  induction vs with
  | nil =>
    intro p p1 done _ hb _ e
    simp only [StripPlotVis.appendValues, Option.some.injEq] at e
    subst e
    simpa using hb
  | cons v vs ih =>
    intro p p1 done hr hb hn e
    obtain ⟨p2, e2, hr2, hmin, hmax⟩ := AppendValue_ring len hlen p done v hr
    simp only [StripPlotVis.appendValues, e2] at e
    cases v with
    | nan => exact absurd rfl (hn CFloat.nan (List.mem_cons_self _ _))
    | num x =>
      have hb2 := bounds_step lits p p2 done x hb hmin hmax
      have := ih p2 p1 (done ++ [CFloat.num x]) hr2 hb2
        (fun u hu => hn u (List.mem_cons_of_mem _ hu)) e
      simpa using this

/-- The bounds of a fresh plot. -/
theorem new_bounds {α : Type} [LinearOrder α] [Zero α] (lits : Literals α)
    (x y w h : CFloat α) (len : Nat) (fg bg : Nat) :
    BoundsInv lits (StripPlotVis.new lits x y w h len fg bg) [] :=
  ⟨lits.lit_1e32, lits.lit_neg_1e32, rfl, rfl, Or.inl rfl, Or.inl rfl, le_refl _, le_refl _,
    fun _ hx => absurd hx (List.not_mem_nil _)⟩

/-- C21 as stated fails: after `AppendValue(NaN)` on a fresh plot, `count` is 1
and slot 0 holds the value, but neither `min <= v_1` nor `v_1 <= max` holds;
no value of `min` or `max` could make them hold, a comparison with
not-a-number being false. -/
theorem C21_counterexample_nan :
    (plotSample.appendValues [CFloat.nan]).map
      (fun p => (p.count, p.data[0]?, CFloat.le p.min CFloat.nan, CFloat.le CFloat.nan p.max)) =
      some (1, some CFloat.nan, false, false) ∧
    (∀ m : CFloat Int, CFloat.le m CFloat.nan = false ∧ CFloat.le CFloat.nan m = false) := by
  refine ⟨by decide, ?_⟩
  intro m
  cases m <;> exact ⟨rfl, rfl⟩

/-- C21 (amended): for every `len > 0` and every sequence of values appended
with `AppendValue` to a freshly constructed plot, every call is defined,
`count` is the number `n` of values, for every `k` with `n - len <= k < n` the
slot `data[k mod len]` holds value `k` (counted from 0), and the slots never
written hold 0; and if none of the values is not-a-number, `min` and `max` are
the minimum and the maximum of the initial bounds (`1e32`, `-1e32`) and the
values: each is its bound or one of the values, and `min <= v <= max` for every
appended `v`. -/
theorem C21_strip_plot_ring_buffer {α : Type} [LinearOrder α] [Zero α] (lits : Literals α)
    (x y w h : CFloat α) (len : Nat) (fg bg : Nat) (vs : List (CFloat α)) (hlen : 0 < len) :
    ∃ p, (StripPlotVis.new lits x y w h len fg bg).appendValues vs = some p ∧
      p.count = vs.length ∧
      (∀ k, vs.length - len ≤ k → k < vs.length → p.data[k % len]? = vs[k]?) ∧
      (∀ j, vs.length ≤ j → j < len → p.data[j]? = some (CFloat.num 0)) ∧
      ((∀ v ∈ vs, v ≠ CFloat.nan) →
        ∃ lo hi, p.min = CFloat.num lo ∧ p.max = CFloat.num hi ∧
          (lo = lits.lit_1e32 ∨ CFloat.num lo ∈ vs) ∧
          (hi = lits.lit_neg_1e32 ∨ CFloat.num hi ∈ vs) ∧
          lo ≤ lits.lit_1e32 ∧ lits.lit_neg_1e32 ≤ hi ∧
          ∀ v, CFloat.num v ∈ vs → lo ≤ v ∧ v ≤ hi) := by
  obtain ⟨p, e, hr⟩ := appendValues_ring len hlen vs _ [] (new_ring lits x y w h len fg bg)
  simp only [List.nil_append] at hr
  obtain ⟨_, _, hc, hring, hzero⟩ := hr
  refine ⟨p, e, hc, hring, hzero, ?_⟩
  intro hn
  have hb := appendValues_bounds lits len hlen vs _ p [] (new_ring lits x y w h len fg bg)
    (new_bounds lits x y w h len fg bg) hn e
  simp only [List.nil_append] at hb
  exact hb

/-- C21 (amended) at the plot of length 3 after the values 5, -2, 9, 7: the
call sequence is defined, `count` is 4, the slots hold 7, -2, 9, and the bounds
are -2 and 9. -/
theorem C21_strip_plot_ring_buffer_witness :
    (plotSample.appendValues
      [CFloat.num 5, CFloat.num (-2), CFloat.num 9, CFloat.num 7]).map
      (fun p => (p.count, p.data, p.min, p.max)) =
      some (4, [CFloat.num 7, CFloat.num (-2), CFloat.num 9], CFloat.num (-2), CFloat.num 9) ∧
    (∃ p, plotSample.appendValues
        [CFloat.num 5, CFloat.num (-2), CFloat.num 9, CFloat.num 7] = some p ∧
      p.count = 4) :=
  ⟨by decide,
   (C21_strip_plot_ring_buffer litsSample (CFloat.num 0) (CFloat.num 0) (CFloat.num 100)
      (CFloat.num 50) 3 1 2 [CFloat.num 5, CFloat.num (-2), CFloat.num 9, CFloat.num 7]
      (by decide)).imp (fun _ hp => ⟨hp.1, hp.2.1⟩)⟩

/-! ## Closest fiducial -/

/-- What the closest-fiducial loop leaves in `dist` and `closest` when it starts
with a number `d` in `dist`: either no element has a range below `d` and both
are as before, or `closest` is the first element whose range is below `d` and
not above the range of any element, and `dist` is that range. -/
theorem closestLoop_spec {α : Type} [LinearOrder α] (rest : List (Fiducial α)) :
    ∀ (i : Nat) (d : α) (c : Option Nat),
      ((closestLoop rest i (CFloat.num d) c) = (CFloat.num d, c) ∧
        ∀ f ∈ rest, CFloat.lt f.range (CFloat.num d) = false) ∨
      (∃ k f, rest[k]? = some f ∧
        closestLoop rest i (CFloat.num d) c = (f.range, some (i + k)) ∧
        CFloat.lt f.range (CFloat.num d) = true ∧
        (∀ g ∈ rest, CFloat.lt g.range f.range = false) ∧
        (∀ j g, j < k → rest[j]? = some g → CFloat.le g.range f.range = false)) := by
  induction rest with
  | nil =>
    intro i d c
    exact Or.inl ⟨rfl, fun _ h => absurd h (List.not_mem_nil _)⟩
  | cons other rest ih =>
    intro i d c
    by_cases hlt : CFloat.lt other.range (CFloat.num d) = true
    · cases hr : other.range with
      | nan => rw [hr] at hlt; simp [CFloat.lt] at hlt
      | num r =>
        rw [hr] at hlt
        have hrd : r < d := by simpa [CFloat.lt] using hlt
        right
        rcases ih (i + 1) r (some i) with ⟨e, hall⟩ | ⟨k, f, hk, e, hf, hmin, hfirst⟩
        · refine ⟨0, other, by simp, ?_, by rw [hr]; exact hlt, ?_, ?_⟩
          · simp only [closestLoop, hr, hlt, if_true, Nat.add_zero] 
            exact e
          · intro g hg
            rw [hr]
            simp only [List.mem_cons] at hg
            rcases hg with hg | hg
            · subst hg; rw [hr]; simp [CFloat.lt]
            · exact hall g hg
          · intro j g hj _; omega
        · refine ⟨k + 1, f, by simpa using hk, ?_, ?_, ?_, ?_⟩
          · simp only [closestLoop, hr, hlt, if_true]
            rw [e]
            congr 2
            omega
          · cases hfr : f.range with
            | nan => rw [hfr] at hf; simp [CFloat.lt] at hf
            | num x =>
              rw [hfr] at hf
              have hxr : x < r := by simpa [CFloat.lt] using hf
              simp [CFloat.lt, lt_trans hxr hrd]
          · intro g hg
            simp only [List.mem_cons] at hg
            rcases hg with hg | hg
            · subst hg
              cases hfr : f.range with
              | nan => rw [hr]; rfl
              | num x =>
                rw [hfr] at hf
                have hxr : x < r := by simpa [CFloat.lt] using hf
                rw [hr]
                simp [CFloat.lt, le_of_lt hxr]
            · exact hmin g hg
          · intro j g hj hg
            cases j with
            | zero =>
              simp only [List.getElem?_cons_zero, Option.some.injEq] at hg
              subst hg
              cases hfr : f.range with
              | nan => rw [hr]; rfl
              | num x =>
                rw [hfr] at hf
                have hxr : x < r := by simpa [CFloat.lt] using hf
                rw [hr]
                simp [CFloat.le, hxr]
            | succ j =>
              simp only [List.getElem?_cons_succ] at hg
              exact hfirst j g (by omega) hg
    · have hnl : CFloat.lt other.range (CFloat.num d) = false := by
        cases h : CFloat.lt other.range (CFloat.num d)
        · rfl
        · exact absurd h hlt
      rcases ih (i + 1) d c with ⟨e, hall⟩ | ⟨k, f, hk, e, hf, hmin, hfirst⟩
      · left
        refine ⟨?_, ?_⟩
        · simp only [closestLoop, hnl, Bool.false_eq_true, if_false]
          exact e
        · intro g hg
          simp only [List.mem_cons] at hg
          rcases hg with hg | hg
          · subst hg; exact hnl
          · exact hall g hg
      · right
        cases hfr : f.range with
        | nan => rw [hfr] at hf; simp [CFloat.lt] at hf
        | num x =>
          rw [hfr] at hf
          have hxd : x < d := by simpa [CFloat.lt] using hf
          have hother : CFloat.lt other.range (CFloat.num x) = false ∧
              CFloat.le other.range (CFloat.num x) = false := by
            cases hr : other.range with
            | nan => exact ⟨rfl, rfl⟩
            | num r =>
              rw [hr] at hnl
              have hdr : d ≤ r := by simpa [CFloat.lt] using hnl
              have hxr : x < r := lt_of_lt_of_le hxd hdr
              simp [CFloat.lt, CFloat.le, hxr, le_of_lt hxr]
          refine ⟨k + 1, f, by simpa using hk, ?_, by rw [hfr]; exact hf, ?_, ?_⟩
          · simp only [closestLoop, hnl, Bool.false_eq_true, if_false]
            rw [e]
            congr 2
            omega
          · intro g hg
            simp only [List.mem_cons] at hg
            rcases hg with hg | hg
            · subst hg; rw [hfr]; exact hother.1
            · exact hmin g hg
          · intro j g hj hg
            cases j with
            | zero =>
              simp only [List.getElem?_cons_zero, Option.some.injEq] at hg
              subst hg
              rw [hfr]; exact hother.2
            | succ j =>
              simp only [List.getElem?_cons_succ] at hg
              exact hfirst j g (by omega) hg

/-- `FiducialUpdate` when no range is below `1e6`. -/
theorem FiducialUpdate_none {α : Type} [LinearOrder α] (lits : Literals α)
    (fiducials : List (Fiducial α)) (robot : robot_t α)
    (e : closestLoop fiducials 0 (CFloat.num lits.lit_1e6) none =
      (CFloat.num lits.lit_1e6, none)) :
    FiducialUpdate lits fiducials robot = some ({ robot with closest := none }, 0) := by
  simp only [FiducialUpdate, e]

/-- `FiducialUpdate` when the loop has picked element `k`. -/
theorem FiducialUpdate_some {α : Type} [LinearOrder α] (lits : Literals α)
    (fiducials : List (Fiducial α)) (robot : robot_t α) (k : Nat) (f : Fiducial α)
    (hk : fiducials[k]? = some f)
    (e : closestLoop fiducials 0 (CFloat.num lits.lit_1e6) none = (f.range, some k)) :
    FiducialUpdate lits fiducials robot =
      some ({ closest := some k, closest_bearing := f.bearing, closest_range := f.range,
              closest_heading_error := f.geom.a }, 0) := by
  simp only [FiducialUpdate, e, hk]

/-- C22: for every list of detected fiducials, `FiducialUpdate` returns 0;
`robot.closest` is none exactly when no range is strictly below `1e6` (so for
the empty list); when it is fiducial `i`, that fiducial's range is strictly
below `1e6` and at most the range of every fiducial with range below `1e6`, no
earlier fiducial has a range at or below it, and `closest_bearing`,
`closest_range` and `closest_heading_error` are its bearing, range and
`geom.a`; when it is none, those three fields keep their previous values. -/
theorem C22_fiducial_update_closest {α : Type} [LinearOrder α] (lits : Literals α)
    (fiducials : List (Fiducial α)) (robot : robot_t α) :
    ∃ r, FiducialUpdate lits fiducials robot = some (r, 0) ∧
      (r.closest = none ↔
        ∀ f ∈ fiducials, CFloat.lt f.range (CFloat.num lits.lit_1e6) = false) ∧
      (∀ i, r.closest = some i → ∃ f, fiducials[i]? = some f ∧
        CFloat.lt f.range (CFloat.num lits.lit_1e6) = true ∧
        (∀ g ∈ fiducials, CFloat.lt g.range (CFloat.num lits.lit_1e6) = true →
          CFloat.le f.range g.range = true) ∧
        (∀ j g, j < i → fiducials[j]? = some g → CFloat.le g.range f.range = false) ∧
        r.closest_bearing = f.bearing ∧ r.closest_range = f.range ∧
        r.closest_heading_error = f.geom.a) ∧
      (r.closest = none →
        r.closest_bearing = robot.closest_bearing ∧
        r.closest_range = robot.closest_range ∧
        r.closest_heading_error = robot.closest_heading_error) := by
  rcases closestLoop_spec fiducials 0 lits.lit_1e6 none with
    ⟨e, hall⟩ | ⟨k, f, hk, e, hf, hmin, hfirst⟩
  · refine ⟨_, FiducialUpdate_none lits fiducials robot e, ?_, ?_, ?_⟩
    · exact ⟨fun _ => hall, fun _ => rfl⟩
    · intro i hi
      cases hi
    · intro _
      exact ⟨rfl, rfl, rfl⟩
  · rw [Nat.zero_add] at e
    refine ⟨_, FiducialUpdate_some lits fiducials robot k f hk e, ?_, ?_, ?_⟩
    · constructor
      · intro h; cases h
      · intro h
        rw [h f (List.getElem?_mem hk)] at hf
        cases hf
    · intro i hi
      simp only [Option.some.injEq] at hi
      subst hi
      refine ⟨f, hk, hf, ?_, hfirst, rfl, rfl, rfl⟩
      intro g hg hg6
      have hgf := hmin g hg
      cases hfr : f.range with
      | nan => rw [hfr] at hf; simp [CFloat.lt] at hf
      | num x =>
        cases hgr : g.range with
        | nan => rw [hgr] at hg6; simp [CFloat.lt] at hg6
        | num y =>
          rw [hfr, hgr] at hgf
          have : ¬ y < x := by simpa [CFloat.lt] using hgf
          simp [CFloat.le, not_lt.mp this]
    · intro h
      cases h

end AvonStage
